import Mathlib

/-!
Verification of the PingSanto agent/controller upgrade and result-pipeline
subsystems against their Go sources.  Each Go function named in a theorem is
shallowly embedded as an executable Lean definition; machine integers are
modelled as `Int`/`Nat` (none of the embedded code relies on wrap-around),
Go errors as `Option String`/`Except String`, and nil-able collaborator
interfaces as `Option` values.  File-system and network effects are made
explicit: file stores are finite maps, collaborator outcomes are parameters.
-/

namespace PingSanto

/-! ## Bounded result queue (`agent/internal/queue`, ResultQueue)

The spill store attached to the queue is abstracted as a state type `σ`
together with an `append` operation that either returns the new store state
or fails (Go: `persist.Store.Append` returning an error).  The event and
metrics recorders are modelled as always attached: the `events` field logs
every event the Go code would hand to the recorder, and the `dropped` /
`spilled` counters mirror the struct fields of the same names. -/

/-- Queue event types (`types.EventQueueDrop`, `types.EventQueueSpill`). -/
inductive QueueEvent
  | queueDrop
  | queueSpill
deriving DecidableEq, Repr

/-- Spill-store interface seen by the queue: `append` returns `none` when the
underlying write fails (Go: `q.spill.Append(result)` returning an error). -/
structure SpillIface (α σ : Type) where
  append : σ → α → Option σ

/-- State of `queue.ResultQueue`.  `spill = none` models the nil spill
pointer; `threshold = 0` until `AttachSpill` is called. -/
structure ResultQueue (α σ : Type) where
  capacity : Nat
  items : List α
  spill : Option σ
  threshold : Nat
  spilled : Nat
  dropped : Nat
  events : List QueueEvent
deriving Repr

/-- `queue.NewResultQueue`: capacities `≤ 0` are clamped to 1. -/
def newResultQueue (α σ : Type) (capacity : Int) : ResultQueue α σ :=
  { capacity := if capacity ≤ 0 then 1 else capacity.toNat
    items := []
    spill := none
    threshold := 0
    spilled := 0
    dropped := 0
    events := [] }

/-- The ratio defaulting at the top of `ResultQueue.AttachSpill`:
`if thresholdRatio <= 0 || thresholdRatio > 1 { thresholdRatio = 0.8 }`. -/
def ratioDefaulted (thresholdRatio : ℚ) : ℚ :=
  if thresholdRatio ≤ 0 ∨ 1 < thresholdRatio then (4 : ℚ) / 5 else thresholdRatio

/-- `ResultQueue.AttachSpill`.  The Go code computes
`int(float64(q.capacity) * thresholdRatio)`; the ratio is modelled as a
rational number, and the `int` conversion (truncation toward zero of a
non-negative product) as `Int.floor`.  All ratios appearing in the
repository (0.5, 0.8) and capacities small enough to enumerate make the
float64 and rational computations agree. -/
def ResultQueue.attachSpill (q : ResultQueue α σ) (store : σ) (thresholdRatio : ℚ) :
    ResultQueue α σ :=
  let ratio := ratioDefaulted thresholdRatio
  let t : Int := ⌊ratio * (q.capacity : ℚ)⌋
  let threshold : Nat := if t < 1 then q.capacity else t.toNat
  { q with spill := some store, threshold := threshold }

/-- `ResultQueue.spillOldestLocked`: move the oldest item into the spill
store; on a failed write, drop it, count the drop and emit `QueueDrop`.
Returns `true` exactly when the item was spilled. -/
def spillOldest (iface : SpillIface α σ) (q : ResultQueue α σ) :
    ResultQueue α σ × Bool :=
  match q.spill, q.items with
  | some st, r :: rest =>
    match iface.append st r with
    | none =>
      ({ q with items := rest, dropped := q.dropped + 1,
                events := q.events ++ [QueueEvent.queueDrop] }, false)
    | some st' =>
      ({ q with items := rest, spill := some st', spilled := q.spilled + 1,
                events := q.events ++ [QueueEvent.queueSpill] }, true)
  | _, _ => (q, false)

/-- The `for len(q.items) >= q.threshold` evacuation loop inside
`ResultQueue.Enqueue`.  Each successful spill removes one item, so the
initial item count bounds the number of loop iterations; the loop stops
early when a spill fails (Go: `break`). -/
def evacuate (iface : SpillIface α σ) : Nat → ResultQueue α σ → ResultQueue α σ
  | 0, q => q
  | fuel + 1, q =>
    if q.threshold ≤ q.items.length then
      match spillOldest iface q with
      | (q', true) => evacuate iface fuel q'
      | (q', false) => q'
    else q

/-- The drop-oldest fallback at the end of `ResultQueue.Enqueue` (the
`if len(q.items) > 0` block followed by the append). -/
def finishDrop (q : ResultQueue α σ) (x : α) : ResultQueue α σ × Bool :=
  if q.items.isEmpty then
    ({ q with items := q.items ++ [x] }, false)
  else
    ({ q with items := q.items.drop 1 ++ [x], dropped := q.dropped + 1,
              events := q.events ++ [QueueEvent.queueDrop] }, true)

/-- `ResultQueue.Enqueue`.  The returned flag is the Go named return
`dropped`, set only by the full-capacity drop branch. -/
def ResultQueue.enqueue (iface : SpillIface α σ) (q : ResultQueue α σ) (x : α) :
    ResultQueue α σ × Bool :=
  let q1 := if q.spill.isSome ∧ 0 < q.threshold then evacuate iface q.items.length q else q
  if q1.capacity ≤ q1.items.length then
    match q1.spill with
    | some _ =>
      let r := spillOldest iface q1
      if r.2 ∧ r.1.items.length < r.1.capacity then
        ({ r.1 with items := r.1.items ++ [x] }, false)
      else finishDrop r.1 x
    | none => finishDrop q1 x
  else ({ q1 with items := q1.items ++ [x] }, false)

/-- `ResultQueue.Drain`: up to `max` items FIFO, all items when `max ≤ 0`. -/
def ResultQueue.drain (q : ResultQueue α σ) (max : Int) :
    ResultQueue α σ × List α :=
  let n := if 0 < max ∧ max < (q.items.length : Int) then max.toNat else q.items.length
  ({ q with items := q.items.drop n }, q.items.take n)

/-- `ResultQueue.Len`. -/
def ResultQueue.len (q : ResultQueue α σ) : Nat := q.items.length

/-- Fold a sequence of enqueues (used to state prefix invariants). -/
def enqueueAll (iface : SpillIface α σ) (q : ResultQueue α σ) : List α → ResultQueue α σ
  | [] => q
  | x :: xs => enqueueAll iface (ResultQueue.enqueue iface q x).1 xs

/-- Spill interface whose writes always succeed, with the store modelled as
the list of records received, in order. -/
def listSpill (α : Type) : SpillIface α (List α) :=
  ⟨fun st r => some (st ++ [r])⟩

/-- Spill interface whose writes always fail. -/
def failSpill (α : Type) : SpillIface α Unit :=
  ⟨fun _ _ => none⟩

/-- Concrete queue state for witnesses: capacity 2, items `[1, 2]`,
spill attached with threshold 1 (as `AttachSpill` with ratio 1/2 yields). -/
def queueC10 : ResultQueue Nat Unit :=
  { capacity := 2, items := [1, 2], spill := some (), threshold := 1,
    spilled := 0, dropped := 0, events := [] }

/-- Concrete queue with a list-modelled spill store attached: capacity 4,
threshold 2, items `[1, 2, 3]`. -/
def queueC6a : ResultQueue Nat (List Nat) :=
  { capacity := 4, items := [1, 2, 3], spill := some [], threshold := 2,
    spilled := 0, dropped := 0, events := [] }

/-- Concrete queue with a failing spill store attached: capacity 3,
threshold 2, items `[4, 5]`. -/
def queueC6f : ResultQueue Nat Unit :=
  { capacity := 3, items := [4, 5], spill := some (), threshold := 2,
    spilled := 0, dropped := 0, events := [] }

/-- Concrete no-spill queue holding three live results. -/
def queueC5 : ResultQueue Nat Unit :=
  { capacity := 4, items := [1, 2, 3], spill := none, threshold := 0,
    spilled := 0, dropped := 0, events := [] }

/-! ## Segmented spill log (`agent/internal/queue/persist`, Store)

Records of type `α` are stored with their on-disk encoding abstracted by an
encoder `enc : α → List Nat` (the bytes of `json.Marshal`); each record
occupies a 4-byte big-endian length prefix plus its encoding.  Segment files
are modelled by their record lists; the Go `seg.size` field always equals the
sum of the record sizes written to it, and `totalSize` is kept as a stored
field updated exactly where the Go code updates it.  The `state.json`
sidecar and fsync are not modelled (the claims under test never reopen a
store), and file I/O is total. -/

/-- Encoded size of a record: 4-byte length prefix plus the JSON bytes. -/
def recSize (enc : α → List Nat) (r : α) : Nat := 4 + (enc r).length

/-- One `segment-<seq>.log` file: its sequence number and its records. -/
structure Segment (α : Type) where
  seq : Nat
  recs : List α
deriving Repr, DecidableEq

/-- Byte size of a segment (Go `seg.size`). -/
def segSize (enc : α → List Nat) (sg : Segment α) : Nat :=
  (sg.recs.map (recSize enc)).sum

/-- State of `persist.Store`. `writeSeq` is the sequence number of the
active write segment (`s.writeSeg`), `none` when that pointer is nil. -/
structure SpillStore (α : Type) where
  maxBytes : Nat
  segmentSize : Nat
  segments : List (Segment α)
  writeSeq : Option Nat
  headSeq : Nat
  headOffset : Nat
  totalSize : Nat
deriving Repr, DecidableEq

/-- A read batch: decoded results plus `(seq, bytes)` entries for `Ack`. -/
structure SpillBatch (α : Type) where
  results : List α
  entries : List (Nat × Nat)
deriving Repr, DecidableEq

/-- `persist.Store.createSegment`: append a fresh empty segment and make it
the write segment (the list stays sorted: new sequence numbers are `1` on an
empty list or `writeSeg.seq + 1`). -/
def SpillStore.createSegment (s : SpillStore α) (seq : Nat) : SpillStore α :=
  { s with segments := s.segments ++ [⟨seq, []⟩], writeSeq := some seq }

/-- `persist.Store.rotateIfNeeded`. -/
def SpillStore.rotateIfNeeded (enc : α → List Nat) (s : SpillStore α) (required : Nat) :
    SpillStore α :=
  match s.writeSeq with
  | none => s.createSegment 1
  | some w =>
    match (s.segments.filter (fun sg => sg.seq = w)).head? with
    | none => s.createSegment (w + 1)
    | some sg =>
      if segSize enc sg + required ≤ s.segmentSize then s else s.createSegment (w + 1)

/-- Write one record into the segment with the given sequence number. -/
def SpillStore.writeRecord (s : SpillStore α) (w : Nat) (r : α) (required : Nat) :
    SpillStore α :=
  { s with
    segments := s.segments.map (fun sg => if sg.seq = w then ⟨sg.seq, sg.recs ++ [r]⟩ else sg),
    totalSize := s.totalSize + required }

/-- `persist.Store.removeHeadSegment` plus the bookkeeping Go performs
around each head removal during `enforceMaxBytes` and `Ack`. -/
def SpillStore.dropHead (enc : α → List Nat) (s : SpillStore α) : SpillStore α :=
  match s.segments with
  | [] => s
  | sg :: rest =>
    { s with
      segments := rest,
      totalSize := s.totalSize - segSize enc sg,
      writeSeq := if s.writeSeq = some sg.seq then none else s.writeSeq }

/-- `persist.Store.enforceMaxBytes`: drop head segments (resetting the head
state when it pointed at the removed segment) until within `maxBytes`.  Each
removal shrinks the segment list, so its length bounds the iterations. -/
def enforceMaxBytes (enc : α → List Nat) : Nat → SpillStore α → SpillStore α
  | 0, s => s
  | fuel + 1, s =>
    if s.totalSize > s.maxBytes then
      match s.segments with
      | [] => s
      | sg :: _ =>
        let s' := s.dropHead enc
        let s' := if s'.headSeq = sg.seq then { s' with headSeq := 0, headOffset := 0 } else s'
        enforceMaxBytes enc fuel s'
    else s

/-- `persist.Store.Append`. -/
def SpillStore.append (enc : α → List Nat) (s : SpillStore α) (r : α) : SpillStore α :=
  let required := recSize enc r
  let s := s.rotateIfNeeded enc required
  let s := match s.writeSeq with
    | some w => s.writeRecord w r required
    | none => s
  enforceMaxBytes enc s.segments.length s

/-- Drop whole records totalling `off` bytes from the front of a segment's
record list.  Reachable head offsets always sit on record boundaries. -/
def dropBytes (enc : α → List Nat) : List α → Nat → List α
  | l, 0 => l
  | [], _ + 1 => []
  | r :: rs, off + 1 => dropBytes enc rs (off + 1 - recSize enc r)

/-- The segment-walking read loop of `persist.Store.ReadBatch`: read from the
segment carrying `startSeq` at `off`, later segments from offset 0, until
`max` records are collected or the segments are exhausted. -/
def collectSegs (enc : α → List Nat) :
    List (Segment α) → Nat → Nat → Nat → List α × List (Nat × Nat)
  | [], _, _, _ => ([], [])
  | sg :: rest, off, startSeq, max =>
    let effOff := if sg.seq = startSeq then off else 0
    let avail := dropBytes enc sg.recs effOff
    let taken := avail.take max
    let entries := taken.map (fun r => (sg.seq, recSize enc r))
    if taken.length < max then
      let next := collectSegs enc rest 0 0 (max - taken.length)
      (taken ++ next.1, entries ++ next.2)
    else (taken, entries)

/-- Locate the suffix of the segment list beginning at `startSeq`
(Go `segmentIndex` + `s.segments[segIndex:]`). -/
def segsFrom (startSeq : Nat) : List (Segment α) → Option (List (Segment α))
  | [] => none
  | sg :: rest => if sg.seq = startSeq then some (sg :: rest) else segsFrom startSeq rest

/-- `persist.Store.ReadBatch`.  Returns the (possibly head-normalized) store
and the batch; only the head-state fixup for a vanished head segment mutates
the store. -/
def SpillStore.readBatch (enc : α → List Nat) (s : SpillStore α) (max : Int) :
    SpillStore α × SpillBatch α :=
  let m : Nat := if max ≤ 0 then 1024 else max.toNat
  match s.segments with
  | [] => (s, ⟨[], []⟩)
  | sg0 :: _ =>
    let startSeq := if s.headSeq = 0 then sg0.seq else s.headSeq
    match segsFrom startSeq s.segments with
    | some tail =>
      let c := collectSegs enc tail s.headOffset startSeq m
      (s, ⟨c.1, c.2⟩)
    | none =>
      let s' := { s with headSeq := sg0.seq, headOffset := 0 }
      let c := collectSegs enc s.segments 0 sg0.seq m
      (s', ⟨c.1, c.2⟩)

/-- The entry loop of `persist.Store.Ack`: advance the head state; whenever
the head segment is fully consumed, delete it and move on.  The loop breaks
when no head segment remains. -/
def ackEntries (enc : α → List Nat) : SpillStore α → List (Nat × Nat) → SpillStore α
  | s, [] => s
  | s, e :: rest =>
    let s := if s.headSeq ≠ e.1 then { s with headSeq := e.1, headOffset := 0 } else s
    let s := { s with headOffset := s.headOffset + e.2 }
    match h : s.segments with
    | [] => s
    | sg :: _ =>
      if segSize enc sg ≤ s.headOffset then
        let s' := s.dropHead enc
        let s' := { s' with headOffset := 0,
                            headSeq := match s'.segments with
                              | [] => 0
                              | nx :: _ => nx.seq }
        ackEntries enc s' rest
      else ackEntries enc s rest

/-- `persist.Store.Ack`: nothing happens for an empty batch. -/
def SpillStore.ack (enc : α → List Nat) (s : SpillStore α) (b : SpillBatch α) :
    SpillStore α :=
  if b.entries.isEmpty then s else ackEntries enc s b.entries

/-- `persist.Store.SizeBytes`. -/
def SpillStore.sizeBytes (s : SpillStore α) : Nat := s.totalSize

/-- `persist.Open` on an empty directory: clamp the limits, start with no
segments and a zero head state, then `ensureWriteSegment` creates
`segment-000001.log`. -/
def openEmptySpill (α : Type) (maxBytes segmentSize : Int) : SpillStore α :=
  let mb : Nat := if maxBytes ≤ 0 then 2 ^ 31 else maxBytes.toNat
  let ss : Nat := if segmentSize ≤ 0 ∨ (mb : Int) < segmentSize
    then min mb (64 * 2 ^ 20) else segmentSize.toNat
  SpillStore.createSegment
    { maxBytes := mb, segmentSize := ss, segments := [], writeSeq := none,
      headSeq := 0, headOffset := 0, totalSize := 0 } 1

/-! ## Backfill controller (`agent/internal/backfill`, Controller)

The token-bucket limiter only delays `Next` (time is outside the embedding);
under an uncancelled context its wait returns nil, so it is not modelled. -/

/-- `backfill.Controller` configuration (`maxBatch`, default 256). -/
structure BackfillCtrl where
  maxBatch : Nat
deriving Repr, DecidableEq

/-- `backfill.Controller.Next`: clamp `max` to `maxBatch`, read a batch from
the store.  Returns the store (with any head normalization) and the batch. -/
def BackfillCtrl.next (enc : α → List Nat) (c : BackfillCtrl) (s : SpillStore α)
    (max : Int) : SpillStore α × SpillBatch α :=
  let m : Int := if max ≤ 0 ∨ (c.maxBatch : Int) < max then (c.maxBatch : Int) else max
  s.readBatch enc m

/-- `backfill.Controller.Ack` forwards to the store `Ack`. -/
def BackfillCtrl.ackBatch (enc : α → List Nat) (_ : BackfillCtrl) (s : SpillStore α)
    (b : SpillBatch α) : SpillStore α :=
  s.ack enc b

/-- `backfill.Controller.PendingBytes` = `store.SizeBytes()`. -/
def BackfillCtrl.pendingBytes (_ : BackfillCtrl) (s : SpillStore α) : Nat :=
  s.sizeBytes

/-! ## Transmitter (`agent/internal/transmit`, Transmitter.Run)

One iteration of the single-goroutine `Run` loop, parameterized by the
outcome of the (at most one) sink `Send` call the iteration performs.  The
trace records the externally visible actions in program order. -/

/-- Externally visible actions of one transmitter iteration. -/
inductive TxAction (α : Type)
  | drained (xs : List α)
  | sendCall (xs : List α) (ok : Bool)
  | requeued (xs : List α)
  | sleptRetry
  | backfillNext
  | ackCall
  | sleptIdle
deriving DecidableEq, Repr

/-- Transmitter configuration: batch size (positive; default 256) and the
optional backfill controller (`WithBackfill`). -/
structure Tx where
  batchSize : Int
  hasBackfill : Bool
  ctrl : BackfillCtrl
deriving Repr

/-- One iteration of `Transmitter.Run`: `flushQueue` first (drain, send,
requeue-and-sleep on failure); only when the drain returned nothing,
`flushBackfill` (Next, send, Ack on success, sleep and no Ack on failure);
otherwise the idle sleep. -/
def runIter (enc : α → List Nat) (iface : SpillIface α σ) (t : Tx)
    (q : ResultQueue α σ) (store : SpillStore α) (sinkOk : Bool) :
    ResultQueue α σ × SpillStore α × List (TxAction α) :=
  let d := q.drain t.batchSize
  if d.2.isEmpty then
    if t.hasBackfill then
      let n := t.ctrl.next enc store t.batchSize
      if n.2.results.isEmpty then
        (d.1, n.1, [TxAction.backfillNext, TxAction.sleptIdle])
      else if sinkOk then
        (d.1, t.ctrl.ackBatch enc n.1 n.2,
          [TxAction.backfillNext, TxAction.sendCall n.2.results true, TxAction.ackCall])
      else
        (d.1, n.1,
          [TxAction.backfillNext, TxAction.sendCall n.2.results false, TxAction.sleptRetry])
    else (d.1, store, [TxAction.sleptIdle])
  else
    if sinkOk then
      (d.1, store, [TxAction.drained d.2, TxAction.sendCall d.2 true])
    else
      (d.2.foldl (fun acc r => (ResultQueue.enqueue iface acc r).1) d.1, store,
        [TxAction.drained d.2, TxAction.sendCall d.2 false,
         TxAction.requeued d.2, TxAction.sleptRetry])

/-- Concrete transmitter configuration: batch size 2 with backfill. -/
def txC5 : Tx := { batchSize := 2, hasBackfill := true, ctrl := ⟨256⟩ }

/-! ## Upgrade manager (`agent/internal/upgrade`, Manager.applyPlan)

`applyPlan` is embedded as a pure function over the plan, the persisted agent
state and the outcomes of its nil-able collaborators (applier, installer,
restarter, reporter, state writer), which the Go `Dependencies` struct
injects.  Wall-clock instants are `Int` (Unix nanoseconds); Go errors are
their message strings.  The returned trace lists the externally visible
calls in program order; report emission and state persistence appear only
when the corresponding collaborator is configured, exactly as in the Go
nil-checks.  Only the `AgentState` fields `applyPlan` reads or writes are
modelled. -/

/-- Plan artifact block (`upgrade.PlanArtifact`). -/
structure PlanArtifactM where
  version : String
  url : String
  sha256 : String
  signatureURL : String
  forceApply : Bool
deriving Repr, DecidableEq

/-- Plan schedule block (`upgrade.PlanSchedule`), instants as `Option Int`. -/
structure PlanScheduleM where
  earliest : Option Int
  latest : Option Int
deriving Repr, DecidableEq

/-- Controller plan payload (`upgrade.Plan`). -/
structure PlanM where
  agentID : String
  channel : String
  artifact : PlanArtifactM
  schedule : PlanScheduleM
  paused : Bool
  notes : String
deriving Repr, DecidableEq

/-- `config.UpgradeAppliedState`: the applied-version substate. -/
structure AppliedStateM where
  version : String
  path : String
  appliedAt : Int
  lastAttempt : Int
  lastError : String
deriving Repr, DecidableEq

/-- The slice of `config.State` read and written by `applyPlan`. -/
structure AgentStateM where
  agentID : String
  applied : AppliedStateM
deriving Repr, DecidableEq

/-- `upgrade.ApplyResult` (bundle path, binary path, applied-at instant). -/
structure ApplyResultM where
  bundlePath : String
  binaryPath : String
  appliedAt : Int
deriving Repr, DecidableEq

/-- `upgrade.InstallResult`. -/
structure InstallResultM where
  targetPath : String
  backupPath : String
deriving Repr, DecidableEq

/-- `upgrade.Report` (the timestamps, always `Now()`, are omitted). -/
structure ReportM where
  agentID : String
  currentVersion : String
  previousVersion : String
  channel : String
  status : String
  message : String
  details : List (String × String)
deriving Repr, DecidableEq

/-- Externally visible calls made by `applyPlan`, in program order. -/
inductive MgrAction
  | applyCall
  | installCall
  | updateState (st : AgentStateM)
  | reportEmit (r : ReportM)
  | restartCall (path : String)
  | rollbackCall (res : InstallResultM)
deriving Repr, DecidableEq

/-- Which return path `applyPlan` took. -/
inductive MgrOutcome
  | skippedEmptyVersion
  | skippedLocallyPaused
  | skippedControllerPaused
  | deferredSchedule
  | skippedUpToDate
  | skippedNoApplier
  | failedApply (msg : String)
  | failedRestart (msg : String)
  | completed
deriving Repr, DecidableEq

deriving instance DecidableEq for Except

/-- Collaborator outcomes injected through `upgrade.Dependencies`:
`none` models a nil interface; an `Except`/`Option` value models the result
of the single call `applyPlan` would make. -/
structure MgrDeps where
  applier : Option (Except String ApplyResultM)
  installer : Option (Except String InstallResultM)
  restarter : Option (Option String)
  reporterConfigured : Bool
  updateConfigured : Bool
deriving Repr, DecidableEq

/-- Result of one `applyPlan` invocation. -/
structure MgrResult where
  state : AgentStateM
  outcome : MgrOutcome
  trace : List MgrAction
deriving Repr, DecidableEq

/-- `upgrade.ErrRestartDeferred` ("restart deferred"), declared in the
restarter source; `Manager.applyPlan` never tests for it. -/
def errRestartDeferred : String := "restart deferred"

/-- `m.report(...)`: builds the `Report` and posts it when a reporter is
configured. -/
def mkReport (plan : PlanM) (agentID previousVersion status message : String)
    (details : List (String × String)) : ReportM :=
  { agentID := agentID, currentVersion := plan.artifact.version,
    previousVersion := previousVersion, channel := plan.channel,
    status := status, message := message, details := details }

/-- Report emission (`m.deps.Reporter != nil`). -/
def emitReport (deps : MgrDeps) (r : ReportM) : List MgrAction :=
  if deps.reporterConfigured then [MgrAction.reportEmit r] else []

/-- State persistence (`m.deps.UpdateState != nil && m.cfg.DataDir != ""`). -/
def emitUpdate (deps : MgrDeps) (st : AgentStateM) : List MgrAction :=
  if deps.updateConfigured then [MgrAction.updateState st] else []

/-- Gate 4: `plan.Schedule.Earliest != nil && now.Before(*plan.Schedule.Earliest)`. -/
def scheduleDefers (earliest : Option Int) (now : Int) : Bool :=
  match earliest with
  | some e => now < e
  | none => false

/-- The shared failure block of `applyPlan` (`if err != nil { ... }`):
record `last_error`, persist, report `failed` with `stage == "apply"`. -/
def applyFail (deps : MgrDeps) (plan : PlanM) (st : AgentStateM)
    (previousVersion msg : String) (pre : List MgrAction) : MgrResult :=
  let st := { st with applied := { st.applied with lastError := msg } }
  ⟨st, MgrOutcome.failedApply msg,
    pre ++ emitUpdate deps st
        ++ emitReport deps
            (mkReport plan st.agentID previousVersion "failed" msg [("stage", "apply")])⟩

/-- The success path of `applyPlan` after apply+install: record the applied
version, persist, report success, then restart; on a restart error revert
the version, roll back the install, persist and report
`failed` with `stage == "restart"`. -/
def applySuccess (deps : MgrDeps) (plan : PlanM) (st : AgentStateM)
    (previousVersion : String) (ares : ApplyResultM) (ires : InstallResultM)
    (pre : List MgrAction) : MgrResult :=
  let st := { st with applied := { st.applied with
      version := plan.artifact.version, path := ires.targetPath,
      appliedAt := ares.appliedAt, lastError := "" } }
  let details := [("bundle_path", ares.bundlePath), ("binary_path", ares.binaryPath),
                  ("installed_path", ires.targetPath)]
  let trace := pre ++ emitUpdate deps st
      ++ emitReport deps (mkReport plan st.agentID previousVersion "success"
          ("applied " ++ plan.artifact.version) details)
  match deps.restarter with
  | none => ⟨st, MgrOutcome.completed, trace⟩
  | some restartOut =>
    if ires.targetPath = "" then ⟨st, MgrOutcome.completed, trace⟩
    else
      let trace := trace ++ [MgrAction.restartCall ires.targetPath]
      match restartOut with
      | none => ⟨st, MgrOutcome.completed, trace⟩
      | some msg =>
        let st := { st with applied := { st.applied with
            lastError := msg, version := previousVersion } }
        ⟨st, MgrOutcome.failedRestart msg,
          trace ++ (if deps.installer.isSome then [MgrAction.rollbackCall ires] else [])
                ++ emitUpdate deps st
                ++ emitReport deps (mkReport plan st.agentID previousVersion "failed" msg
                    [("stage", "restart")])⟩

/-- The body of `applyPlan` from the `Apply` call on (all gates passed,
applier configured). -/
def applyAttempt (deps : MgrDeps) (plan : PlanM) (st : AgentStateM) (now : Int)
    (applyOut : Except String ApplyResultM) : MgrResult :=
  let previousVersion := st.applied.version
  let st := { st with applied := { st.applied with lastAttempt := now } }
  match applyOut with
  | Except.error msg => applyFail deps plan st previousVersion msg [MgrAction.applyCall]
  | Except.ok ares =>
    match deps.installer with
    | some instOut =>
      match instOut with
      | Except.error msg =>
        applyFail deps plan st previousVersion msg
          [MgrAction.applyCall, MgrAction.installCall]
      | Except.ok ires0 =>
        let ires := if ires0.targetPath = ""
          then { ires0 with targetPath := ares.binaryPath } else ires0
        applySuccess deps plan st previousVersion ares ires
          [MgrAction.applyCall, MgrAction.installCall]
    | none =>
      applySuccess deps plan st previousVersion ares ⟨ares.binaryPath, ""⟩
        [MgrAction.applyCall]

/-- `Manager.applyPlan`. -/
def applyPlan (deps : MgrDeps) (plan : PlanM) (st0 : AgentStateM)
    (locallyPaused : Bool) (now : Int) : MgrResult :=
  if plan.artifact.version = "" then ⟨st0, MgrOutcome.skippedEmptyVersion, []⟩
  else
    let st := if st0.agentID = "" then { st0 with agentID := plan.agentID } else st0
    if locallyPaused ∧ ¬ plan.artifact.forceApply then
      ⟨st, MgrOutcome.skippedLocallyPaused, []⟩
    else if plan.paused ∧ ¬ plan.artifact.forceApply then
      ⟨st, MgrOutcome.skippedControllerPaused, []⟩
    else if scheduleDefers plan.schedule.earliest now then
      ⟨st, MgrOutcome.deferredSchedule, []⟩
    else if plan.artifact.version = st.applied.version ∧ ¬ plan.artifact.forceApply then
      ⟨st, MgrOutcome.skippedUpToDate, []⟩
    else
      match deps.applier with
      | none => ⟨st, MgrOutcome.skippedNoApplier, []⟩
      | some applyOut => applyAttempt deps plan st now applyOut

/-! Claim-side gate predicates (the five gates as the specification words
them). -/

/-- Gate (1): plan version empty. -/
def gateEmptyVersion (plan : PlanM) : Prop := plan.artifact.version = ""

/-- Gate (2): locally paused and not force_apply. -/
def gateLocallyPaused (plan : PlanM) (locallyPaused : Bool) : Prop :=
  locallyPaused = true ∧ plan.artifact.forceApply = false

/-- Gate (3): plan paused and not force_apply. -/
def gateControllerPaused (plan : PlanM) : Prop :=
  plan.paused = true ∧ plan.artifact.forceApply = false

/-- Gate (4): schedule.earliest set and now precedes it. -/
def gateSchedule (plan : PlanM) (now : Int) : Prop :=
  ∃ e, plan.schedule.earliest = some e ∧ now < e

/-- Gate (5): applied.version equals the plan version and not force_apply. -/
def gateUpToDate (plan : PlanM) (st : AgentStateM) : Prop :=
  plan.artifact.version = st.applied.version ∧ plan.artifact.forceApply = false

/-! ### Installer file-system model (`upgrade.BinaryInstaller`)

An in-memory file system mapping paths to `(content, mode)`; the staged
binary and target paths are given (target resolution from the running
executable is environmental).  I/O succeeds; the Go error branches restore
the backup only on failures that cannot occur here. -/

/-- Path → (content bytes, mode). -/
def InstFS : Type := String → Option (List Nat × Nat)

/-- `os.Remove` (missing files tolerated by the callers modelled here). -/
def fsRemove (fs : InstFS) (p : String) : InstFS :=
  fun x => if x = p then none else fs x

/-- Create/truncate a file. -/
def fsWrite (fs : InstFS) (p : String) (v : List Nat × Nat) : InstFS :=
  fun x => if x = p then some v else fs x

/-- `os.Chmod`. -/
def fsChmod (fs : InstFS) (p : String) (mode : Nat) : InstFS :=
  match fs p with
  | none => fs
  | some (c, _) => fsWrite fs p (c, mode)

/-- `os.Rename` (no-op when the source is missing; the modelled flows only
rename existing files). -/
def fsRename (fs : InstFS) (src dst : String) : InstFS :=
  match fs src with
  | none => fs
  | some v => fun x => if x = dst then some v else if x = src then none else fs x

/-- `BinaryInstaller.Install` with resolved target path `target`: remove a
stale temp, back up the existing target (capturing its mode), copy the
staged binary to the temp with the source mode, chmod it to the captured
mode, and atomically rename it over the target.  `none` models the error
returns. -/
def installFS (fs : InstFS) (target sourcePath : String) :
    Option (InstFS × InstallResultM) :=
  if sourcePath = "" then none
  else match fs sourcePath with
  | none => none
  | some (content, srcMode) =>
    let backup := target ++ ".bak"
    let temp := target ++ ".tmp"
    let fs := fsRemove fs temp
    match fs target with
    | some (_, tmode) =>
      let fs := fsRemove fs backup
      let fs := fsRename fs target backup
      let fs := fsWrite fs temp (content, srcMode)
      let fs := fsChmod fs temp tmode
      let fs := fsRename fs temp target
      some (fs, ⟨target, backup⟩)
    | none =>
      let fs := fsWrite fs temp (content, srcMode)
      let fs := fsChmod fs temp 493
      let fs := fsRename fs temp target
      some (fs, ⟨target, backup⟩)

/-- `BinaryInstaller.Rollback`: rename the backup back over the target when
it still exists; no-op on empty paths or a missing backup. -/
def rollbackFS (fs : InstFS) (res : InstallResultM) : InstFS :=
  if res.backupPath = "" ∨ res.targetPath = "" then fs
  else match fs res.backupPath with
    | none => fs
    | some _ => fsRename fs res.backupPath res.targetPath

/-! Concrete upgrade-manager inputs for witnesses and the C3 evaluation. -/

/-- A plan for version 1.2.0 with no schedule window. -/
def planW : PlanM :=
  { agentID := "agt_123", channel := "stable",
    artifact := { version := "1.2.0", url := "https://x/pkg.tgz",
                  sha256 := "sha", signatureURL := "", forceApply := false },
    schedule := { earliest := none, latest := none },
    paused := false, notes := "" }

/-- Agent state currently on version 1.0.0. -/
def stW : AgentStateM :=
  { agentID := "agt_123",
    applied := { version := "1.0.0", path := "/usr/bin/agent", appliedAt := 10,
                 lastAttempt := 10, lastError := "" } }

/-- Successful apply outcome. -/
def aresW : ApplyResultM :=
  { bundlePath := "/data/upgrades/1.2.0", binaryPath := "/data/upgrades/1.2.0/bundle/agent",
    appliedAt := 50 }

/-- Successful install outcome. -/
def iresW : InstallResultM :=
  { targetPath := "/usr/bin/agent", backupPath := "/usr/bin/agent.bak" }

/-- Dependencies where apply and install succeed and the restarter fails. -/
def depsC2 : MgrDeps :=
  { applier := some (Except.ok aresW), installer := some (Except.ok iresW),
    restarter := some (some "exec failed"), reporterConfigured := true,
    updateConfigured := true }

/-- Dependencies where apply and install succeed and the restarter returns
`ErrRestartDeferred`. -/
def depsC3 : MgrDeps :=
  { applier := some (Except.ok aresW), installer := some (Except.ok iresW),
    restarter := some (some errRestartDeferred), reporterConfigured := true,
    updateConfigured := true }

/-! ## Plan store lookup (`controller/internal/store`)

`FetchUpgradePlan` of the Postgres and in-memory stores.  The plan table is
a finite map from keys to stored plans; transient database failures are not
modelled (`fetchPlanRecord` either yields a row or `ErrPlanNotFound`).  The
ETag computation (`computeETag`: quoted hex SHA-256 of the canonical JSON)
is an abstract parameter `etagOf`; the stored `etag` column of a Postgres
row is part of the row. -/

/-- Artifact block of `store.UpgradePlanResponse`. -/
structure StoreArtifactM where
  version : String
  url : String
  sha256 : String
  signatureURL : String
  forceApply : Bool
deriving Repr, DecidableEq

/-- Schedule block of `store.UpgradePlanResponse`. -/
structure StoreScheduleM where
  earliest : Option Int
  latest : Option Int
deriving Repr, DecidableEq

/-- `store.UpgradePlanResponse`. -/
structure UpgradePlanResponseM where
  agentID : String
  generatedAt : Int
  channel : String
  artifact : StoreArtifactM
  schedule : StoreScheduleM
  paused : Bool
  notes : String
deriving Repr, DecidableEq

/-- Go `strings.TrimSpace`, on the character list (core `String.trim` is not
kernel-reducible). -/
def goTrimSpace (s : String) : String :=
  String.mk (((s.data.dropWhile Char.isWhitespace).reverse.dropWhile
    Char.isWhitespace).reverse)

/-- Go `strings.ToLower`, on the character list. -/
def goToLower (s : String) : String := String.mk (s.data.map Char.toLower)

/-- Go `strings.HasSuffix`, on the character list. -/
def goHasSuffix (s sfx : String) : Bool := sfx.data.isSuffixOf s.data

/-- `store.normalizeChannel`: lowercase of the whitespace-trimmed channel. -/
def normalizeChannel (channel : String) : String := goToLower (goTrimSpace channel)

/-- `store.channelPlanKey`: `"channel:" + normalized`, empty defaulting to
`"stable"`. -/
def channelPlanKey (channel : String) : String :=
  let normalized := normalizeChannel channel
  let normalized := if normalized = "" then "stable" else normalized
  "channel:" ++ normalized

/-- `store.ErrPlanNotFound`. -/
inductive FetchErr
  | planNotFound
deriving Repr, DecidableEq

/-- `PostgresStore.FetchUpgradePlan`: exact `agent_id` row first, then the
synthetic channel key, else `ErrPlanNotFound`. -/
def postgresFetchUpgradePlan (db : String → Option (UpgradePlanResponseM × String))
    (agentID channel : String) : Except FetchErr (UpgradePlanResponseM × String) :=
  match db agentID with
  | some r => Except.ok r
  | none =>
    let key := channelPlanKey channel
    if key = "" then Except.error FetchErr.planNotFound
    else
      match db key with
      | some r => Except.ok r
      | none => Except.error FetchErr.planNotFound

/-- `memoryStore.defaultPlan`: the synthesized scaffolding plan. -/
def defaultPlan (agentID channel : String) (now : Int) : UpgradePlanResponseM :=
  let normalized := normalizeChannel channel
  let normalized := if normalized = "" then "stable" else normalized
  { agentID := agentID, generatedAt := now, channel := normalized,
    artifact :=
      { version := "1.0.0",
        url := "https://artifacts.example.com/pingsanto/agent/1.0.0/pingsanto-agent.tgz",
        sha256 := "deadbeef",
        signatureURL := "https://artifacts.example.com/pingsanto/agent/1.0.0/pingsanto-agent.sig",
        forceApply := false },
    schedule := { earliest := none, latest := none },
    paused := false, notes := "scaffolding plan" }

/-- `memoryStore.FetchUpgradePlan`: exact key, then channel key, else the
synthesized default plan; an ETag accompanies every answer. -/
def memoryFetchUpgradePlan (etagOf : UpgradePlanResponseM → String)
    (plans : String → Option UpgradePlanResponseM) (agentID channel : String)
    (now : Int) : UpgradePlanResponseM × String :=
  match plans agentID with
  | some p => (p, etagOf p)
  | none =>
    let key := channelPlanKey channel
    match (if key = "" then none else plans key) with
    | some p => (p, etagOf p)
    | none =>
      let p := defaultPlan agentID channel now
      (p, etagOf p)

/-- The lookup order exactly as the specification words it: the exact
`agent_id` key first; if absent, the synthetic key
`"channel:<normalized channel>"` where normalization lowercases and trims
and an empty channel defaults to `"stable"`. -/
def fetchLookupSpec {β : Type} (lookup : String → Option β) (agentID channel : String) :
    Option β :=
  match lookup agentID with
  | some p => some p
  | none =>
    lookup ("channel:" ++
      (let c := goToLower (goTrimSpace channel)
       if c = "" then "stable" else c))

/-! ## Artifact store (`controller/internal/artifacts`)

`FileStore.Save`/`Open` and `MemoryStore.Save` over an in-memory file map.
The streaming SHA-256, sizes and timestamps in `Meta` are not needed by the
claim under test; the temp-write/fsync/rename sequence collapses to one map
update (its atomicity is not observable here).  `fmt.Sprintf("%d", …)` is
modelled by `decRepr`, decimal rendering via `Nat.digits`. -/

/-- Artifact directory contents: file name → bytes. -/
def ArtFS : Type := String → Option (List Nat)

/-- Write (create or replace) a file. -/
def artWrite (fs : ArtFS) (p : String) (v : List Nat) : ArtFS :=
  fun x => if x = p then some v else fs x

/-- Go `time.Time` instants: seconds plus nanoseconds within the second. -/
structure GoTime where
  sec : Int
  nsec : Nat
deriving Repr, DecidableEq

/-- `Time.Unix()`. -/
def GoTime.unix (t : GoTime) : Int := t.sec

/-- `Time.UnixNano()`. -/
def GoTime.unixNano (t : GoTime) : Int := t.sec * 1000000000 + (t.nsec : Int)

/-- Base-10 digits, least significant first, by fuel-indexed structural
recursion (kernel-reducible, unlike `Nat.digits`). -/
def decDigitsAux : Nat → Nat → List Nat
  | 0, _ => []
  | _ + 1, 0 => []
  | fuel + 1, n + 1 => ((n + 1) % 10) :: decDigitsAux fuel ((n + 1) / 10)

/-- Base-10 digits of `n`, least significant first. -/
def decDigits (n : Nat) : List Nat := decDigitsAux n n

/-- Decimal digit characters of `n`, least significant first. -/
def decDigitsRev (n : Nat) : List Char :=
  (decDigits n).map (fun d => Char.ofNat (48 + d))

/-- `fmt.Sprintf("%d", n)`. -/
def decRepr (n : Int) : String :=
  if n < 0 then "-" ++ String.mk (decDigitsRev n.natAbs).reverse
  else if n = 0 then "0"
  else String.mk (decDigitsRev n.toNat).reverse

/-- `filepath.Ext`: the suffix beginning at the final dot of the final
slash-separated element; empty when there is no such dot. -/
def goExt (s : String) : String :=
  let rev := s.data.reverse
  let pre := rev.takeWhile (fun c => decide (c ≠ '/' ∧ c ≠ '.'))
  match rev.drop pre.length with
  | '.' :: _ => String.mk ('.' :: pre.reverse)
  | _ => ""

/-- `strings.TrimSuffix`. -/
def goTrimSuffix (s sfx : String) : String :=
  if goHasSuffix s sfx then String.mk (s.data.take (s.data.length - sfx.data.length))
  else s

/-- The character class `[a-zA-Z0-9._-]` of `sanitizeRegex`. -/
def allowedChar (c : Char) : Bool :=
  (('a' ≤ c ∧ c ≤ 'z') ∨ ('A' ≤ c ∧ c ≤ 'Z') ∨ ('0' ≤ c ∧ c ≤ '9') ∨
   c = '.' ∨ c = '_' ∨ c = '-')

mutual

/-- `sanitizeRegex.ReplaceAllString(v, "-")`: each maximal run of
disallowed characters becomes one `'-'`. -/
def sanitizeRuns : List Char → List Char
  | [] => []
  | c :: rest =>
    if allowedChar c then c :: sanitizeRuns rest
    else '-' :: sanitizeSkipRun rest

/-- Skip the remainder of a disallowed run. -/
def sanitizeSkipRun : List Char → List Char
  | [] => []
  | c :: rest =>
    if allowedChar c then c :: sanitizeRuns rest
    else sanitizeSkipRun rest

end

/-- Membership in the `strings.Trim` cutset `"-_."`. -/
def inCutset (c : Char) : Bool := c = '-' ∨ c = '_' ∨ c = '.'

/-- `strings.Trim(v, "-_.")`. -/
def goTrimCutset (s : String) : String :=
  String.mk (((s.data.dropWhile inCutset).reverse.dropWhile inCutset).reverse)

/-- `artifacts.sanitizedBase` (Go `strings.TrimSpace` modelled by
`String.trim`). -/
def sanitizedBase : List String → String
  | [] => ""
  | v :: rest =>
    let v := goTrimSpace v
    if v = "" then sanitizedBase rest
    else
      let v := goTrimSuffix v (goExt v)
      let v := String.mk (sanitizeRuns v.data)
      let v := goTrimCutset v
      if v = "" then sanitizedBase rest else v

/-- `artifacts.normalizedExt`: compound tar suffixes are preserved, a
missing extension becomes `.bin`. -/
def normalizedExt (name : String) : String :=
  let lower := goToLower name
  if goHasSuffix lower (".tar.gz") then ".tar.gz"
  else if goHasSuffix lower (".tar.xz") then ".tar.xz"
  else if goHasSuffix lower (".tar.bz2") then ".tar.bz2"
  else
    let ext := goExt name
    if ext = "" then ".bin" else ext

/-- `artifacts.buildSignatureName`. -/
def buildSignatureName (base artifactName : String) : String :=
  let base := if base = "" then base else goTrimSuffix base (goExt base)
  if base ≠ "" then base ++ ".sig"
  else if goHasSuffix (goToLower artifactName) (".sig") then artifactName
  else artifactName ++ ".sig"

/-- `FileStore.Save` (success path): compose
`<base>-<unix-seconds><canonical-ext>`, write the artifact, optionally the
signature.  Returns the directory, the artifact name and the signature
name. -/
def fileStoreSave (fs : ArtFS) (version artifactName : String) (payload : List Nat)
    (signature : Option (List Nat)) (signatureName : String) (now : GoTime) :
    ArtFS × String × String :=
  let base0 := sanitizedBase [version, artifactName]
  let base := if base0 = "" then "artifact" else base0
  let ext := normalizedExt artifactName
  let name := base ++ "-" ++ decRepr now.unix ++ ext
  let fs := artWrite fs name payload
  match signature with
  | none => (fs, name, "")
  | some sig =>
    let sigBase := sanitizedBase [version, signatureName]
    let sigName := buildSignatureName sigBase name
    (artWrite fs sigName sig, name, sigName)

/-- `FileStore.Open`: reject empty names, then read
(`filepath.Clean` is the identity on the slash-free names `Save`
produces). -/
def fileStoreOpen (fs : ArtFS) (name : String) : Option (List Nat) :=
  if name = "" then none else fs name

/-- `MemoryStore.Save`: identical naming except nanosecond resolution. -/
def memoryStoreSave (files : ArtFS) (version artifactName : String)
    (payload : List Nat) (now : GoTime) : ArtFS × String :=
  let base0 := sanitizedBase [version, artifactName]
  let base := if base0 = "" then "artifact" else base0
  let name := base ++ "-" ++ decRepr now.unixNano ++ normalizedExt artifactName
  (artWrite files name payload, name)

section QueueLemmas

variable {α σ : Type}

lemma enqueue_no_spill_step (iface : SpillIface α σ) (q : ResultQueue α σ) (x : α)
    (hs : q.spill = none) (hc : 1 ≤ q.capacity) (hlen : q.items.length ≤ q.capacity) :
    (q.enqueue iface x).1.items = (q.items ++ [x]).drop (q.items.length + 1 - q.capacity) ∧
    (q.enqueue iface x).1.spill = none ∧
    (q.enqueue iface x).1.capacity = q.capacity ∧
    (q.enqueue iface x).1.items.length ≤ q.capacity := by
  have hnotsome : ¬ (q.spill.isSome ∧ 0 < q.threshold) := by
    simp [hs]
  by_cases hfull : q.capacity ≤ q.items.length
  · have heq : q.items.length = q.capacity := le_antisymm hlen hfull
    cases hi : q.items with
    | nil =>
      rw [hi] at heq
      simp at heq
      omega
    | cons y ys =>
      have heq' : ys.length + 1 = q.capacity := by rw [hi] at heq; simpa using heq
      have hfull' : q.capacity ≤ ys.length + 1 := by omega
      have hidx' : ys.length + 1 + 1 - q.capacity = 1 := by omega
      refine ⟨?_, ?_, ?_, ?_⟩ <;>
        simp [ResultQueue.enqueue, hnotsome, hs, finishDrop, hi, hfull', hidx'] <;>
        omega
  · have h0 : q.items.length + 1 - q.capacity = 0 := by omega
    refine ⟨?_, ?_, ?_, ?_⟩ <;>
      simp [ResultQueue.enqueue, hnotsome, hs, hfull, h0] <;>
      omega

lemma enqueueAll_no_spill (iface : SpillIface α σ) (xs : List α) :
    ∀ (q : ResultQueue α σ), q.spill = none → 1 ≤ q.capacity →
      q.items.length ≤ q.capacity →
      (enqueueAll iface q xs).items
          = (q.items ++ xs).drop (q.items.length + xs.length - q.capacity) ∧
      (enqueueAll iface q xs).items.length ≤ q.capacity := by
  induction xs with
  | nil =>
    intro q hs hc hlen
    refine ⟨?_, hlen⟩
    have h0 : q.items.length - q.capacity = 0 := by omega
    simp [enqueueAll, h0]
  | cons x xs ih =>
    intro q hs hc hlen
    obtain ⟨hit, hsp, hcap, hlen'⟩ := enqueue_no_spill_step iface q x hs hc hlen
    have hc' : 1 ≤ (q.enqueue iface x).1.capacity := by rw [hcap]; exact hc
    have hlen'' : (q.enqueue iface x).1.items.length ≤ (q.enqueue iface x).1.capacity := by
      rw [hcap]; exact hlen'
    obtain ⟨h1, h2⟩ := ih (q.enqueue iface x).1 hsp hc' hlen''
    rw [hcap] at h1 h2
    refine ⟨?_, ?_⟩
    · show (enqueueAll iface (q.enqueue iface x).1 xs).items = _
      rw [h1, hit]
      have hd : q.items.length + 1 - q.capacity ≤ (q.items ++ [x]).length := by
        simp only [List.length_append, List.length_singleton]
        omega
      rw [← List.drop_append_of_le_length hd, List.drop_drop, List.append_assoc]
      simp only [List.singleton_append, List.length_drop, List.length_append,
        List.length_singleton, List.length_cons, List.length_nil]
      congr 1
      omega
    · exact h2

lemma evacuate_listSpill :
    ∀ (fuel : Nat) (q : ResultQueue α (List α)) (st : List α),
      q.spill = some st → 1 ≤ q.threshold → q.items.length ≤ fuel →
      evacuate (listSpill α) fuel q =
        { q with items := q.items.drop (q.items.length + 1 - q.threshold),
                 spill := some (st ++ q.items.take (q.items.length + 1 - q.threshold)),
                 spilled := q.spilled + (q.items.length + 1 - q.threshold),
                 events := q.events ++
                   List.replicate (q.items.length + 1 - q.threshold) QueueEvent.queueSpill } := by
  intro fuel
  induction fuel with
  | zero =>
    intro q st hs ht hf
    obtain ⟨cap, items, spl, thr, sp, dr, ev⟩ := q
    dsimp only at hs ht hf ⊢
    subst hs
    have hnil : items = [] := List.eq_nil_of_length_eq_zero (by omega)
    subst hnil
    have hk : ([] : List α).length + 1 - thr = 0 := by simp; omega
    rw [hk, evacuate]
    simp
  | succ fuel ih =>
    intro q st hs ht hf
    obtain ⟨cap, items, spl, thr, sp, dr, ev⟩ := q
    dsimp only at hs ht hf ⊢
    subst hs
    cases items with
    | nil =>
      have hk : ([] : List α).length + 1 - thr = 0 := by simp; omega
      rw [hk, evacuate, if_neg (by dsimp only [List.length_nil]; omega)]
      simp
    | cons r rest =>
      by_cases hcond : thr ≤ rest.length + 1
      · rw [evacuate, if_pos (by simpa using hcond)]
        have hso : spillOldest (listSpill α)
            (ResultQueue.mk cap (r :: rest) (some st) thr sp dr ev) =
            (ResultQueue.mk cap rest (some (st ++ [r])) thr (sp + 1) dr
              (ev ++ [QueueEvent.queueSpill]), true) := by
          simp [spillOldest, listSpill]
        rw [hso]
        dsimp only
        have hlen : rest.length ≤ fuel := by
          simp only [List.length_cons] at hf; omega
        rw [ih (ResultQueue.mk cap rest (some (st ++ [r])) thr (sp + 1) dr
              (ev ++ [QueueEvent.queueSpill])) (st ++ [r]) rfl ht hlen]
        have hK : (r :: rest).length + 1 - thr = (rest.length + 1 - thr) + 1 := by
          simp only [List.length_cons]; omega
        rw [hK]
        simp [List.drop_succ_cons, List.take_succ_cons, List.replicate_succ,
          ResultQueue.mk.injEq]
        omega
      · have hk : (r :: rest).length + 1 - thr = 0 := by
          simp only [List.length_cons]; omega
        rw [hk, evacuate, if_neg (by simpa using hcond)]
        simp

end QueueLemmas

/-- Claim C7: on a capacity-`C` queue with no spill attached, after any prefix
of enqueues `Len() ≤ C` and the retained items are exactly the last
`min(C, n)` items enqueued, in FIFO order; on a capacity-1 queue, enqueueing
`a` then `b` leaves `Drain` returning `[b]` with one drop counted. -/
theorem C7_queue_no_spill_retains_last (α σ : Type) (iface : SpillIface α σ)
    (C : Int) (hC : 1 ≤ C) (xs : List α) (a b : α) :
    (enqueueAll iface (newResultQueue α σ C) xs).len ≤ C.toNat ∧
    (enqueueAll iface (newResultQueue α σ C) xs).items = xs.drop (xs.length - C.toNat) ∧
    ((enqueueAll iface (newResultQueue α σ 1) [a, b]).drain 0).2 = [b] ∧
    (enqueueAll iface (newResultQueue α σ 1) [a, b]).dropped = 1 := by
  have hq : (newResultQueue α σ C).capacity = C.toNat := by
    simp only [newResultQueue]
    rw [if_neg (by omega)]
  obtain ⟨h1, h2⟩ := enqueueAll_no_spill iface xs (newResultQueue α σ C)
    (by simp [newResultQueue]) (by rw [hq]; omega) (by simp [newResultQueue])
  rw [hq] at h1 h2
  refine ⟨h2, ?_, ?_, ?_⟩
  · rw [h1]
    simp [newResultQueue]
  · simp [enqueueAll, ResultQueue.enqueue, newResultQueue, finishDrop,
      ResultQueue.drain]
  · simp [enqueueAll, ResultQueue.enqueue, newResultQueue, finishDrop]

/-- Witness for C7: capacity 2, enqueue sequence `[10, 20, 30]`. -/
theorem C7_queue_no_spill_retains_last_witness :
    (1 : Int) ≤ 2 ∧
    ((enqueueAll (failSpill Nat) (newResultQueue Nat Unit 2) [10, 20, 30]).len ≤ (2 : Int).toNat ∧
     (enqueueAll (failSpill Nat) (newResultQueue Nat Unit 2) [10, 20, 30]).items
        = [10, 20, 30].drop ([10, 20, 30].length - (2 : Int).toNat) ∧
     ((enqueueAll (failSpill Nat) (newResultQueue Nat Unit 1) [7, 8]).drain 0).2 = [8] ∧
     (enqueueAll (failSpill Nat) (newResultQueue Nat Unit 1) [7, 8]).dropped = 1) :=
  ⟨by norm_num,
   C7_queue_no_spill_retains_last Nat Unit (failSpill Nat) 2 (by norm_num) [10, 20, 30] 7 8⟩

/-- Claim C10 (implicit): when the spill write fails during the
above-threshold evacuation inside `Enqueue`, the oldest item is removed, the
drop counter incremented and a `QueueDrop` event emitted, yet `Enqueue`
returns `dropped = false`: the returned flag reports only drops taken because
the queue was at full capacity. -/
theorem C10_spill_failure_enqueue_returns_false (α σ : Type) (iface : SpillIface α σ)
    (q : ResultQueue α σ) (st : σ) (r : α) (rest : List α) (x : α)
    (hspill : q.spill = some st)
    (hitems : q.items = r :: rest)
    (hfail : iface.append st r = none)
    (hthr : 1 ≤ q.threshold)
    (hlen : q.threshold ≤ q.items.length)
    (hcap : q.items.length ≤ q.capacity) :
    (q.enqueue iface x).2 = false ∧
    (q.enqueue iface x).1.items = rest ++ [x] ∧
    (q.enqueue iface x).1.dropped = q.dropped + 1 ∧
    (q.enqueue iface x).1.events = q.events ++ [QueueEvent.queueDrop] := by
  obtain ⟨cap, items, spl, thr, sp, dr, ev⟩ := q
  dsimp only at hspill hitems hthr hlen hcap ⊢
  subst hspill
  subst hitems
  simp only [List.length_cons] at hlen hcap
  have hpos : 0 < thr := hthr
  have hrest : ¬ cap ≤ rest.length := by omega
  refine ⟨?_, ?_, ?_, ?_⟩ <;>
    simp [ResultQueue.enqueue, evacuate, spillOldest, hfail, hpos, hlen, hrest]

/-- Claim C6 counterexample: with capacity 10 and ratio 1/20 (inside `(0,1]`,
so no defaulting), the claimed threshold `max(1, floor(ratio*C)) = 1`, but
`AttachSpill` sets the threshold to the full capacity 10. -/
theorem C6_threshold_counterexample :
    ((newResultQueue Nat Unit 10).attachSpill () ((1 : ℚ)/20)).threshold = 10 ∧
    max 1 ⌊((1 : ℚ)/20) * (((newResultQueue Nat Unit 10).capacity : ℚ))⌋ = 1 := by
  have hcap : (newResultQueue Nat Unit 10).capacity = 10 := by
    simp [newResultQueue]
  have hfl : ⌊((1 : ℚ)/20) * ((10 : Nat) : ℚ)⌋ = 0 := by
    rw [Int.floor_eq_zero_iff]
    constructor <;> norm_num
  have hcond : ¬(((1 : ℚ)/20) ≤ 0 ∨ 1 < ((1 : ℚ)/20)) := by norm_num
  constructor
  · simp only [ResultQueue.attachSpill, ratioDefaulted, hcap, if_neg hcond]
    rw [hfl]
    norm_num
  · rw [hcap, hfl]
    norm_num

/-- Claim C6 (amended): the threshold equals `floor(ratio*C)` except that when
that floor is below 1 the threshold is set to the full capacity `C` (not 1);
the default ratio 0.8 applies when the given ratio is outside `(0,1]`.  On
each Enqueue, while the queue length is at least the threshold the oldest
item is moved to the spill store (in order), and when the spill write fails
the oldest item is dropped, the drop counter incremented and a `QueueDrop`
event emitted. -/
theorem C6_spill_threshold_and_evacuation (α : Type) (capacity : Int) (store : List α)
    (ratio : ℚ) (qa : ResultQueue α (List α)) (st : List α) (x : α)
    (qf : ResultQueue α Unit) (r : α) (rest : List α) (y : α)
    (haspill : qa.spill = some st) (hathr : 1 ≤ qa.threshold)
    (hathr2 : qa.threshold ≤ qa.capacity) (halen : qa.items.length ≤ qa.capacity)
    (hfspill : qf.spill = some ()) (hfthr : 1 ≤ qf.threshold)
    (hfitems : qf.items = r :: rest) (hflen : qf.threshold ≤ qf.items.length)
    (hfcap : qf.items.length ≤ qf.capacity) :
    (1 ≤ ⌊ratioDefaulted ratio * (((newResultQueue α (List α) capacity).capacity : ℚ))⌋ →
      ((newResultQueue α (List α) capacity).attachSpill store ratio).threshold
        = (⌊ratioDefaulted ratio * (((newResultQueue α (List α) capacity).capacity : ℚ))⌋).toNat) ∧
    (⌊ratioDefaulted ratio * (((newResultQueue α (List α) capacity).capacity : ℚ))⌋ < 1 →
      ((newResultQueue α (List α) capacity).attachSpill store ratio).threshold
        = (newResultQueue α (List α) capacity).capacity) ∧
    ((qa.enqueue (listSpill α) x).1.items
        = qa.items.drop (qa.items.length + 1 - qa.threshold) ++ [x] ∧
     (qa.enqueue (listSpill α) x).1.spill
        = some (st ++ qa.items.take (qa.items.length + 1 - qa.threshold)) ∧
     (qa.enqueue (listSpill α) x).1.spilled
        = qa.spilled + (qa.items.length + 1 - qa.threshold) ∧
     (qa.enqueue (listSpill α) x).1.dropped = qa.dropped) ∧
    ((qf.enqueue (failSpill α) y).1.items = rest ++ [y] ∧
     (qf.enqueue (failSpill α) y).1.dropped = qf.dropped + 1 ∧
     (qf.enqueue (failSpill α) y).1.events = qf.events ++ [QueueEvent.queueDrop]) := by
  refine ⟨?_, ?_, ?_, ?_⟩
  · intro h
    simp only [ResultQueue.attachSpill]
    rw [if_neg (by omega)]
  · intro h
    simp only [ResultQueue.attachSpill]
    rw [if_pos (by omega)]
  · obtain ⟨cap, items, spl, thr, sp, dr, ev⟩ := qa
    dsimp only at haspill hathr hathr2 halen ⊢
    subst haspill
    have hpos : 0 < thr := hathr
    have hev := evacuate_listSpill (α := α) items.length
        (ResultQueue.mk cap items (some st) thr sp dr ev) st rfl hathr (le_refl _)
    dsimp only at hev
    have hcapbranch : ¬ cap ≤ items.length - (items.length + 1 - thr) := by omega
    refine ⟨?_, ?_, ?_, ?_⟩ <;>
      simp [ResultQueue.enqueue, hev, hpos, hcapbranch]
  · obtain ⟨h1, h2, h3⟩ :=
      (C10_spill_failure_enqueue_returns_false α Unit (failSpill α) qf () r rest y
        hfspill hfitems rfl hfthr hflen hfcap).2
    exact ⟨h1, h2, h3⟩

/-- Witness for the amended C6 at concrete inputs (capacity 4, ratio 1/2;
queue `[1,2,3]` with an always-succeeding spill; queue `[4,5]` with a failing
spill). -/
theorem C6_spill_threshold_and_evacuation_witness :
    ((1 : Int) ≤ ⌊ratioDefaulted ((1 : ℚ)/2)
        * (((newResultQueue Nat (List Nat) 4).capacity : ℚ))⌋) ∧
    ((newResultQueue Nat (List Nat) 4).attachSpill [] ((1 : ℚ)/2)).threshold
        = (⌊ratioDefaulted ((1 : ℚ)/2)
            * (((newResultQueue Nat (List Nat) 4).capacity : ℚ))⌋).toNat ∧
    ((queueC6a.enqueue (listSpill Nat) 9).1.items
        = queueC6a.items.drop (queueC6a.items.length + 1 - queueC6a.threshold) ++ [9] ∧
     (queueC6a.enqueue (listSpill Nat) 9).1.spill
        = some ([] ++ queueC6a.items.take (queueC6a.items.length + 1 - queueC6a.threshold)) ∧
     (queueC6a.enqueue (listSpill Nat) 9).1.spilled
        = queueC6a.spilled + (queueC6a.items.length + 1 - queueC6a.threshold) ∧
     (queueC6a.enqueue (listSpill Nat) 9).1.dropped = queueC6a.dropped) ∧
    ((queueC6f.enqueue (failSpill Nat) 6).1.items = [5] ++ [6] ∧
     (queueC6f.enqueue (failSpill Nat) 6).1.dropped = queueC6f.dropped + 1 ∧
     (queueC6f.enqueue (failSpill Nat) 6).1.events
        = queueC6f.events ++ [QueueEvent.queueDrop]) := by
  have hfl : ⌊ratioDefaulted ((1 : ℚ)/2)
      * (((newResultQueue Nat (List Nat) 4).capacity : ℚ))⌋ = 2 := by
    have hcap : (newResultQueue Nat (List Nat) 4).capacity = 4 := by
      simp [newResultQueue]
    rw [hcap, ratioDefaulted, if_neg (by norm_num)]
    norm_num
  have h := C6_spill_threshold_and_evacuation Nat 4 [] ((1 : ℚ)/2) queueC6a [] 9
    queueC6f 4 [5] 6 rfl (by decide) (by decide) (by decide) rfl (by decide) rfl
    (by decide) (by decide)
  exact ⟨by rw [hfl]; norm_num, h.1 (by rw [hfl]; norm_num), h.2.2.1, h.2.2.2⟩

lemma openEmptySpill_eq (α : Type) (maxBytes segmentSize : Int) :
    openEmptySpill α maxBytes segmentSize
      = ⟨(openEmptySpill α maxBytes segmentSize).maxBytes,
         (openEmptySpill α maxBytes segmentSize).segmentSize,
         [⟨1, []⟩], some 1, 0, 0, 0⟩ := rfl

lemma openEmptySpill_ss_le_mb (α : Type) (maxBytes segmentSize : Int) :
    (openEmptySpill α maxBytes segmentSize).segmentSize
      ≤ (openEmptySpill α maxBytes segmentSize).maxBytes := by
  simp only [openEmptySpill, SpillStore.createSegment]
  split_ifs <;> omega

lemma readBatch_stable (enc : α → List Nat) (s : SpillStore α) (max : Int) :
    (s.readBatch enc max).1.readBatch enc max = s.readBatch enc max := by
  obtain ⟨mb, ss, segs, w, hseq, hoff, tot⟩ := s
  cases segs with
  | nil => rfl
  | cons sg0 rest =>
    rcases hsf : segsFrom (if hseq = 0 then sg0.seq else hseq) (sg0 :: rest) with _ | tail
    · have hsf0 : segsFrom sg0.seq (sg0 :: rest) = some (sg0 :: rest) := by
        simp [segsFrom]
      simp only [SpillStore.readBatch, hsf]
      simp only [ite_self, hsf0]
    · simp only [SpillStore.readBatch, hsf]

lemma foldl_enqueue_no_spill (iface : SpillIface α σ) (xs : List α) :
    ∀ q : ResultQueue α σ, q.spill = none →
      q.items.length + xs.length ≤ q.capacity →
      (xs.foldl (fun acc r => (ResultQueue.enqueue iface acc r).1) q).items
        = q.items ++ xs := by
  induction xs with
  | nil => intro q _ _; simp
  | cons x xs ih =>
    intro q hs hlen
    simp only [List.length_cons] at hlen
    have hc : 1 ≤ q.capacity := by omega
    obtain ⟨hit, hsp, hcap, _⟩ := enqueue_no_spill_step iface q x hs hc (by omega)
    have hidx : q.items.length + 1 - q.capacity = 0 := by omega
    rw [hidx, List.drop_zero] at hit
    have := ih (q.enqueue iface x).1 hsp
      (by rw [hit, hcap]; simp; omega)
    simp only [List.foldl_cons]
    rw [this, hit, List.append_assoc, List.singleton_append]

/-- Claim C5: in every iteration of `Transmitter.Run`, the live queue is
drained first and the backfill controller is consulted only when the drain
returned no items; on a live send failure all drained items are re-enqueued
and the loop sleeps `retry_sleep`; on a backfill send failure the batch is
left un-acked (`Ack` runs only after a successful send), so a subsequent
`Next` returns the same records. -/
theorem C5_transmitter_priority_and_retry (α σ : Type) (enc : α → List Nat)
    (iface : SpillIface α σ) (t : Tx) (q : ResultQueue α σ) (store : SpillStore α)
    (sinkOk : Bool)
    (hq : q.items.length ≤ q.capacity) (hc : 1 ≤ q.capacity) :
    ((q.drain t.batchSize).2 ≠ [] →
      TxAction.backfillNext ∉ (runIter enc iface t q store sinkOk).2.2 ∧
      (runIter enc iface t q store sinkOk).2.1 = store) ∧
    ((q.drain t.batchSize).2 ≠ [] → sinkOk = false →
      (runIter enc iface t q store sinkOk).1
        = (q.drain t.batchSize).2.foldl
            (fun acc r => (ResultQueue.enqueue iface acc r).1) (q.drain t.batchSize).1 ∧
      TxAction.sleptRetry ∈ (runIter enc iface t q store sinkOk).2.2 ∧
      (q.spill = none →
        (runIter enc iface t q store sinkOk).1.items
          = (q.drain t.batchSize).1.items ++ (q.drain t.batchSize).2)) ∧
    ((q.drain t.batchSize).2 = [] → t.hasBackfill = true →
      (t.ctrl.next enc store t.batchSize).2.results ≠ [] → sinkOk = false →
      TxAction.ackCall ∉ (runIter enc iface t q store sinkOk).2.2 ∧
      (runIter enc iface t q store sinkOk).2.1 = (t.ctrl.next enc store t.batchSize).1 ∧
      t.ctrl.next enc (t.ctrl.next enc store t.batchSize).1 t.batchSize
        = t.ctrl.next enc store t.batchSize) ∧
    (TxAction.ackCall ∈ (runIter enc iface t q store sinkOk).2.2 → sinkOk = true) := by
  refine ⟨?_, ?_, ?_, ?_⟩
  · intro hne
    have hnemp : (q.drain t.batchSize).2.isEmpty = false := by
      simpa [List.isEmpty_iff] using hne
    cases sinkOk <;> simp [runIter, hnemp]
  · intro hne hsink
    subst hsink
    have hnemp : (q.drain t.batchSize).2.isEmpty = false := by
      simpa [List.isEmpty_iff] using hne
    refine ⟨by simp [runIter, hnemp], by simp [runIter, hnemp], ?_⟩
    intro hnospill
    simp only [runIter, hnemp, Bool.false_eq_true, if_false]
    rw [foldl_enqueue_no_spill iface (q.drain t.batchSize).2 (q.drain t.batchSize).1
      (by simp [ResultQueue.drain, hnospill])
      (by simp [ResultQueue.drain]; omega)]
  · intro hemp hbf hres hsink
    subst hsink
    have hemp' : (q.drain t.batchSize).2.isEmpty = true := by simp [hemp]
    have hres' : (t.ctrl.next enc store t.batchSize).2.results.isEmpty = false := by
      simpa [List.isEmpty_iff] using hres
    refine ⟨by simp [runIter, hemp', hbf, hres'], by simp [runIter, hemp', hbf, hres'], ?_⟩
    simp only [BackfillCtrl.next]
    exact readBatch_stable enc store _
  · intro hmem
    by_contra hfalse
    have hsink : sinkOk = false := by
      cases sinkOk
      · rfl
      · exact absurd rfl hfalse
    subst hsink
    rcases hde : (q.drain t.batchSize).2.isEmpty with _ | _ <;>
    rcases hbf : t.hasBackfill with _ | _ <;>
    rcases hre : (t.ctrl.next enc store t.batchSize).2.results.isEmpty with _ | _ <;>
      simp [runIter, hde, hbf, hre] at hmem

lemma scheduleDefers_iff (earliest : Option Int) (now : Int) :
    scheduleDefers earliest now = true ↔ ∃ e, earliest = some e ∧ now < e := by
  cases earliest <;> simp [scheduleDefers]

lemma applySuccess_shape (deps : MgrDeps) (plan : PlanM) (st : AgentStateM)
    (prev : String) (ares : ApplyResultM) (ires : InstallResultM)
    (pre : List MgrAction) (h : MgrAction.applyCall ∈ pre) :
    MgrAction.applyCall ∈ (applySuccess deps plan st prev ares ires pre).trace ∧
    ((applySuccess deps plan st prev ares ires pre).outcome = MgrOutcome.completed ∨
     ∃ msg, (applySuccess deps plan st prev ares ires pre).outcome
        = MgrOutcome.failedRestart msg) := by
  rcases hr : deps.restarter with _ | ro
  · exact ⟨by simp [applySuccess, hr, h], Or.inl (by simp [applySuccess, hr])⟩
  · rcases ro with _ | msg
    · by_cases htp : ires.targetPath = ""
      · exact ⟨by simp [applySuccess, hr, htp, h], Or.inl (by simp [applySuccess, hr, htp])⟩
      · exact ⟨by simp [applySuccess, hr, htp, h], Or.inl (by simp [applySuccess, hr, htp])⟩
    · by_cases htp : ires.targetPath = ""
      · exact ⟨by simp [applySuccess, hr, htp, h], Or.inl (by simp [applySuccess, hr, htp])⟩
      · exact ⟨by simp [applySuccess, hr, htp, h],
               Or.inr ⟨msg, by simp [applySuccess, hr, htp]⟩⟩

lemma applyAttempt_shape (deps : MgrDeps) (plan : PlanM) (st : AgentStateM)
    (now : Int) (out : Except String ApplyResultM) :
    MgrAction.applyCall ∈ (applyAttempt deps plan st now out).trace ∧
    ((∃ m, (applyAttempt deps plan st now out).outcome = MgrOutcome.failedApply m) ∨
     (applyAttempt deps plan st now out).outcome = MgrOutcome.completed ∨
     (∃ m, (applyAttempt deps plan st now out).outcome = MgrOutcome.failedRestart m)) := by
  rcases out with msg | ares
  · exact ⟨by simp [applyAttempt, applyFail],
           Or.inl ⟨msg, by simp [applyAttempt, applyFail]⟩⟩
  · rcases hinst : deps.installer with _ | instOut
    · obtain ⟨hmem, ho⟩ := applySuccess_shape deps plan
        { st with applied := { st.applied with lastAttempt := now } }
        st.applied.version ares ⟨ares.binaryPath, ""⟩ [MgrAction.applyCall] (by simp)
      refine ⟨by simpa [applyAttempt, hinst] using hmem, ?_⟩
      rcases ho with h | ⟨m, h⟩
      · exact Or.inr (Or.inl (by simpa [applyAttempt, hinst] using h))
      · exact Or.inr (Or.inr ⟨m, by simpa [applyAttempt, hinst] using h⟩)
    · rcases instOut with msg | ires0
      · exact ⟨by simp [applyAttempt, hinst, applyFail],
               Or.inl ⟨msg, by simp [applyAttempt, hinst, applyFail]⟩⟩
      · obtain ⟨hmem, ho⟩ := applySuccess_shape deps plan
          { st with applied := { st.applied with lastAttempt := now } }
          st.applied.version ares
          (if ires0.targetPath = "" then { ires0 with targetPath := ares.binaryPath }
            else ires0)
          [MgrAction.applyCall, MgrAction.installCall] (by simp)
        refine ⟨by simpa [applyAttempt, hinst] using hmem, ?_⟩
        rcases ho with h | ⟨m, h⟩
        · exact Or.inr (Or.inl (by simpa [applyAttempt, hinst] using h))
        · exact Or.inr (Or.inr ⟨m, by simpa [applyAttempt, hinst] using h⟩)

/-- Claim C1: `applyPlan` evaluates its gates in order and skips (returns
without invoking the applier) exactly when one fires: (1) empty plan
version; (2) locally paused and not force_apply; (3) plan paused and not
force_apply; (4) schedule.earliest set and now precedes it; (5)
applied.version equals the plan version and not force_apply.  If no gate
fires and an applier is configured, the applier is invoked.  Each outcome is
characterized by the first gate that fires. -/
theorem C1_apply_plan_gates (deps : MgrDeps) (plan : PlanM) (st : AgentStateM)
    (locallyPaused : Bool) (now : Int) :
    ((applyPlan deps plan st locallyPaused now).outcome = MgrOutcome.skippedEmptyVersion
        ↔ gateEmptyVersion plan) ∧
    ((applyPlan deps plan st locallyPaused now).outcome = MgrOutcome.skippedLocallyPaused
        ↔ ¬gateEmptyVersion plan ∧ gateLocallyPaused plan locallyPaused) ∧
    ((applyPlan deps plan st locallyPaused now).outcome = MgrOutcome.skippedControllerPaused
        ↔ ¬gateEmptyVersion plan ∧ ¬gateLocallyPaused plan locallyPaused ∧
          gateControllerPaused plan) ∧
    ((applyPlan deps plan st locallyPaused now).outcome = MgrOutcome.deferredSchedule
        ↔ ¬gateEmptyVersion plan ∧ ¬gateLocallyPaused plan locallyPaused ∧
          ¬gateControllerPaused plan ∧ gateSchedule plan now) ∧
    ((applyPlan deps plan st locallyPaused now).outcome = MgrOutcome.skippedUpToDate
        ↔ ¬gateEmptyVersion plan ∧ ¬gateLocallyPaused plan locallyPaused ∧
          ¬gateControllerPaused plan ∧ ¬gateSchedule plan now ∧ gateUpToDate plan st) ∧
    (MgrAction.applyCall ∈ (applyPlan deps plan st locallyPaused now).trace
        ↔ deps.applier.isSome ∧ ¬gateEmptyVersion plan ∧
          ¬gateLocallyPaused plan locallyPaused ∧ ¬gateControllerPaused plan ∧
          ¬gateSchedule plan now ∧ ¬gateUpToDate plan st) := by
  have hfix : (if st.agentID = "" then { st with agentID := plan.agentID } else st).applied
      = st.applied := by
    by_cases h : st.agentID = "" <;> simp [h]
  by_cases h1 : plan.artifact.version = ""
  · simp [applyPlan, h1, gateEmptyVersion, gateLocallyPaused, gateControllerPaused,
      gateSchedule, gateUpToDate]
  · by_cases h2 : locallyPaused = true ∧ plan.artifact.forceApply = false
    · simp [applyPlan, h1, h2, gateEmptyVersion, gateLocallyPaused,
        gateControllerPaused, gateSchedule, gateUpToDate]
    · by_cases h3 : plan.paused = true ∧ plan.artifact.forceApply = false
      · have hl : locallyPaused = false := by
          cases hloc : locallyPaused
          · rfl
          · exact absurd ⟨hloc, h3.2⟩ h2
        simp [applyPlan, h1, hl, h3, gateEmptyVersion, gateLocallyPaused,
          gateControllerPaused, gateSchedule, gateUpToDate]
      · by_cases h4 : scheduleDefers plan.schedule.earliest now = true
        · simp [applyPlan, h1, h2, h3, h4, gateEmptyVersion, gateLocallyPaused,
            gateControllerPaused, gateSchedule, gateUpToDate, ← scheduleDefers_iff]
        · by_cases h5 : plan.artifact.version = st.applied.version ∧
              plan.artifact.forceApply = false
          · have hl : locallyPaused = false := by
              cases hloc : locallyPaused
              · rfl
              · exact absurd ⟨hloc, h5.2⟩ h2
            have hpz : plan.paused = false := by
              cases hp : plan.paused
              · rfl
              · exact absurd ⟨hp, h5.2⟩ h3
            have h1' : ¬ st.applied.version = "" := by rw [← h5.1]; exact h1
            simp [applyPlan, h1, h1', hl, hpz, h4, h5, hfix, gateEmptyVersion,
              gateLocallyPaused, gateControllerPaused, gateSchedule, gateUpToDate,
              ← scheduleDefers_iff]
          · rcases ha : deps.applier with _ | out
            · simp [applyPlan, h1, h2, h3, h4, h5, ha, hfix, gateEmptyVersion,
                gateLocallyPaused, gateControllerPaused, gateSchedule, gateUpToDate,
                ← scheduleDefers_iff]
            · obtain ⟨hmem, ho⟩ := applyAttempt_shape deps plan
                (if st.agentID = "" then { st with agentID := plan.agentID } else st)
                now out
              have houtcome : (applyPlan deps plan st locallyPaused now)
                  = applyAttempt deps plan
                    (if st.agentID = "" then { st with agentID := plan.agentID } else st)
                    now out := by
                simp [applyPlan, h1, h2, h3, h4, h5, ha, hfix]
              rw [houtcome]
              have hne : ∀ o, ((∃ m, o = MgrOutcome.failedApply m) ∨
                  o = MgrOutcome.completed ∨
                  (∃ m, o = MgrOutcome.failedRestart m)) →
                  o ≠ MgrOutcome.skippedEmptyVersion ∧
                  o ≠ MgrOutcome.skippedLocallyPaused ∧
                  o ≠ MgrOutcome.skippedControllerPaused ∧
                  o ≠ MgrOutcome.deferredSchedule ∧
                  o ≠ MgrOutcome.skippedUpToDate := by
                rintro o (⟨m, rfl⟩ | rfl | ⟨m, rfl⟩) <;> simp
              obtain ⟨hn1, hn2, hn3, hn4, hn5⟩ := hne _ ho
              refine ⟨?_, ?_, ?_, ?_, ?_, ?_⟩ <;>
                simp_all [gateEmptyVersion, gateLocallyPaused, gateControllerPaused,
                  gateSchedule, gateUpToDate, ← scheduleDefers_iff]

lemma append_ne_self (t u : String) (hu : u ≠ "") : t ≠ t ++ u := by
  intro h
  have hlen := congrArg String.length h
  rw [String.length_append] at hlen
  have h0 : u.length = 0 := by omega
  apply hu
  obtain ⟨data⟩ := u
  cases data with
  | nil => rfl
  | cons c cs => exact absurd h0 (by simp [String.length])

lemma append_suffix_ne (t : String) : t ++ ".bak" ≠ t ++ ".tmp" := by
  intro h
  have : (t ++ ".bak").data = (t ++ ".tmp").data := congrArg String.data h
  simp only [String.data_append] at this
  have := List.append_cancel_left this
  simp at this

lemma rollbackFS_eval (fs : InstFS) (res : InstallResultM) (v : List Nat × Nat)
    (hb : res.backupPath ≠ "") (ht : res.targetPath ≠ "")
    (h : fs res.backupPath = some v) :
    rollbackFS fs res = fun x => if x = res.targetPath then some v
        else if x = res.backupPath then none else fs x := by
  rw [rollbackFS, if_neg (by simp [hb, ht]), h]
  dsimp only
  rw [fsRename, h]

lemma append_bak_ne_empty (t : String) : t ++ ".bak" ≠ "" := by
  intro h
  have hlen := congrArg String.length h
  rw [String.length_append] at hlen
  have h4 : (".bak" : String).length = 4 := rfl
  have h0 : ("" : String).length = 0 := rfl
  omega

/-- Claim C2: when apply and install succeed and the restarter fails, the
manager emits its success report before invoking the restarter, then on the
restart error rolls the install back, reverts `applied.version` to the
previous version, records a non-empty `applied.last_error`, and emits a
follow-up report with status "failed" whose details carry
`stage == "restart"`.  The final conjunct shows `BinaryInstaller`'s
install-then-rollback round trip renames the backup over the target,
restoring its pre-install bytes and mode. -/
theorem C2_restart_failure_rollback (deps : MgrDeps) (plan : PlanM) (st : AgentStateM)
    (locallyPaused : Bool) (now : Int) (ares : ApplyResultM) (ires : InstallResultM)
    (msg : String)
    (h1 : plan.artifact.version ≠ "")
    (h2 : ¬(locallyPaused = true ∧ plan.artifact.forceApply = false))
    (h3 : ¬(plan.paused = true ∧ plan.artifact.forceApply = false))
    (h4 : scheduleDefers plan.schedule.earliest now = false)
    (h5 : ¬(plan.artifact.version = st.applied.version ∧ plan.artifact.forceApply = false))
    (hap : deps.applier = some (Except.ok ares))
    (hin : deps.installer = some (Except.ok ires))
    (htp : ires.targetPath ≠ "")
    (hre : deps.restarter = some (some msg))
    (hmsg : msg ≠ "")
    (hrep : deps.reporterConfigured = true)
    (hupd : deps.updateConfigured = true) :
    (let stFix := if st.agentID = "" then { st with agentID := plan.agentID } else st
     let prev := st.applied.version
     let stSucc : AgentStateM := { stFix with applied :=
        { version := plan.artifact.version, path := ires.targetPath,
          appliedAt := ares.appliedAt, lastAttempt := now, lastError := "" } }
     let stFail : AgentStateM := { stFix with applied :=
        { version := prev, path := ires.targetPath,
          appliedAt := ares.appliedAt, lastAttempt := now, lastError := msg } }
     let successR := mkReport plan stFix.agentID prev "success"
        ("applied " ++ plan.artifact.version)
        [("bundle_path", ares.bundlePath), ("binary_path", ares.binaryPath),
         ("installed_path", ires.targetPath)]
     let failedR := mkReport plan stFix.agentID prev "failed" msg [("stage", "restart")]
     (applyPlan deps plan st locallyPaused now).outcome = MgrOutcome.failedRestart msg ∧
     (applyPlan deps plan st locallyPaused now).state = stFail ∧
     (applyPlan deps plan st locallyPaused now).state.applied.version = st.applied.version ∧
     (applyPlan deps plan st locallyPaused now).state.applied.lastError = msg ∧ msg ≠ "" ∧
     failedR.status = "failed" ∧ failedR.details = [("stage", "restart")] ∧
     (applyPlan deps plan st locallyPaused now).trace =
       [MgrAction.applyCall, MgrAction.installCall, MgrAction.updateState stSucc,
        MgrAction.reportEmit successR, MgrAction.restartCall ires.targetPath,
        MgrAction.rollbackCall ires, MgrAction.updateState stFail,
        MgrAction.reportEmit failedR]) ∧
    (∀ (fs : InstFS) (target src : String) (tc sc : List Nat) (tm sm : Nat)
        (fs1 : InstFS) (res : InstallResultM),
      target ≠ "" → src ≠ "" →
      fs target = some (tc, tm) → fs src = some (sc, sm) →
      src ≠ target → src ≠ target ++ ".bak" → src ≠ target ++ ".tmp" →
      installFS fs target src = some (fs1, res) →
      fs1 target = some (sc, tm) ∧
      fs1 (target ++ ".bak") = some (tc, tm) ∧
      rollbackFS fs1 res target = some (tc, tm) ∧
      rollbackFS fs1 res (target ++ ".bak") = none) := by
  constructor
  · dsimp only
    have hires : (if ires.targetPath = "" then { ires with targetPath := ares.binaryPath }
        else ires) = ires := by rw [if_neg htp]
    have hfix : (if st.agentID = "" then { st with agentID := plan.agentID } else st).applied
        = st.applied := by
      by_cases h : st.agentID = "" <;> simp [h]
    refine ⟨?_, ?_, ?_, ?_, hmsg, rfl, rfl, ?_⟩ <;>
      simp [applyPlan, applyAttempt, applySuccess, applyFail, emitUpdate, emitReport,
        mkReport, h1, h2, h3, h4, h5, hap, hin, hre, hrep, hupd, htp, hires, hfix]
  · intro fs target src tc sc tm sm fs1 res htgt hsrc hftgt hfsrc hd1 hd2 hd3 hinst
    have hbaktmp := append_suffix_ne target
    have htmp := append_ne_self target (".tmp") (by decide)
    have hbak := append_ne_self target (".bak") (by decide)
    have hbakne := append_bak_ne_empty target
    have nb1 : (target ++ ".bak") ≠ target := Ne.symm hbak
    have nt1 : (target ++ ".tmp") ≠ target := Ne.symm htmp
    have ntb : (target ++ ".tmp") ≠ (target ++ ".bak") := Ne.symm hbaktmp
    have hcomp : installFS fs target src
        = some (fsRename (fsChmod (fsWrite (fsRename
              (fsRemove (fsRemove fs (target ++ ".tmp")) (target ++ ".bak"))
              target (target ++ ".bak")) (target ++ ".tmp") (sc, sm))
              (target ++ ".tmp") tm) (target ++ ".tmp") target,
           (⟨target, target ++ ".bak"⟩ : InstallResultM)) := by
      rw [installFS, if_neg hsrc, hfsrc]
      dsimp only
      rw [show (fsRemove fs (target ++ ".tmp")) target = some (tc, tm) by
        simp [fsRemove, htmp, hftgt]]
    rw [hcomp] at hinst
    have hpair := Option.some.inj hinst
    rw [Prod.mk.injEq] at hpair
    obtain ⟨hF, hR⟩ := hpair
    subst hF
    subst hR
    set G := fsChmod (fsWrite (fsRename
        (fsRemove (fsRemove fs (target ++ ".tmp")) (target ++ ".bak"))
        target (target ++ ".bak")) (target ++ ".tmp") (sc, sm)) (target ++ ".tmp") tm
      with hGdef
    have hGtmp : G (target ++ ".tmp") = some (sc, tm) := by
      rw [hGdef]
      simp [fsChmod, fsWrite]
    have hGbak : G (target ++ ".bak") = some (tc, tm) := by
      rw [hGdef]
      have hinner : (fsRemove (fsRemove fs (target ++ ".tmp")) (target ++ ".bak")) target
          = some (tc, tm) := by
        simp [fsRemove, htmp, hbak, hftgt]
      simp [fsChmod, fsWrite, fsRename, hinner, ntb, nb1, hbaktmp]
    have hren : fsRename G (target ++ ".tmp") target
        = fun x => if x = target then some (sc, tm)
            else if x = target ++ ".tmp" then none else G x := by
      rw [fsRename, hGtmp]
    have hFtgt : (fsRename G (target ++ ".tmp") target) target = some (sc, tm) := by
      rw [hren]
      simp
    have hFbak : (fsRename G (target ++ ".tmp") target) (target ++ ".bak")
        = some (tc, tm) := by
      rw [hren]
      simp [nb1, hbaktmp, hGbak]
    have hrb := rollbackFS_eval (fsRename G (target ++ ".tmp") target)
        ⟨target, target ++ ".bak"⟩ (tc, tm) (by simpa using hbakne) (by simpa using htgt)
        (by simpa using hFbak)
    refine ⟨hFtgt, hFbak, ?_, ?_⟩
    · rw [hrb]
      simp
    · rw [hrb]
      simp [nb1]

/-- Witness for C2: plan 1.2.0 over installed 1.0.0, restarter failing with
"exec failed". -/
theorem C2_restart_failure_rollback_witness :
    (planW.artifact.version ≠ "" ∧
     ¬(false = true ∧ planW.artifact.forceApply = false) ∧
     ¬(planW.paused = true ∧ planW.artifact.forceApply = false) ∧
     scheduleDefers planW.schedule.earliest 50 = false ∧
     ¬(planW.artifact.version = stW.applied.version ∧ planW.artifact.forceApply = false) ∧
     depsC2.applier = some (Except.ok aresW) ∧
     depsC2.installer = some (Except.ok iresW) ∧
     iresW.targetPath ≠ "" ∧
     depsC2.restarter = some (some ("exec failed")) ∧
     ("exec failed" : String) ≠ "" ∧
     depsC2.reporterConfigured = true ∧
     depsC2.updateConfigured = true) ∧
    ((let stFix := if stW.agentID = "" then { stW with agentID := planW.agentID } else stW
      let prev := stW.applied.version
      let stSucc : AgentStateM := { stFix with applied :=
         { version := planW.artifact.version, path := iresW.targetPath,
           appliedAt := aresW.appliedAt, lastAttempt := 50, lastError := "" } }
      let stFail : AgentStateM := { stFix with applied :=
         { version := prev, path := iresW.targetPath,
           appliedAt := aresW.appliedAt, lastAttempt := 50, lastError := "exec failed" } }
      let successR := mkReport planW stFix.agentID prev "success"
         ("applied " ++ planW.artifact.version)
         [("bundle_path", aresW.bundlePath), ("binary_path", aresW.binaryPath),
          ("installed_path", iresW.targetPath)]
      let failedR := mkReport planW stFix.agentID prev "failed" ("exec failed")
        [("stage", "restart")]
      (applyPlan depsC2 planW stW false 50).outcome
          = MgrOutcome.failedRestart ("exec failed") ∧
      (applyPlan depsC2 planW stW false 50).state = stFail ∧
      (applyPlan depsC2 planW stW false 50).state.applied.version
          = stW.applied.version ∧
      (applyPlan depsC2 planW stW false 50).state.applied.lastError = "exec failed" ∧
      ("exec failed" : String) ≠ "" ∧
      failedR.status = "failed" ∧ failedR.details = [("stage", "restart")] ∧
      (applyPlan depsC2 planW stW false 50).trace =
        [MgrAction.applyCall, MgrAction.installCall, MgrAction.updateState stSucc,
         MgrAction.reportEmit successR, MgrAction.restartCall iresW.targetPath,
         MgrAction.rollbackCall iresW, MgrAction.updateState stFail,
         MgrAction.reportEmit failedR]) ∧
     (∀ (fs : InstFS) (target src : String) (tc sc : List Nat) (tm sm : Nat)
         (fs1 : InstFS) (res : InstallResultM),
       target ≠ "" → src ≠ "" →
       fs target = some (tc, tm) → fs src = some (sc, sm) →
       src ≠ target → src ≠ target ++ ".bak" → src ≠ target ++ ".tmp" →
       installFS fs target src = some (fs1, res) →
       fs1 target = some (sc, tm) ∧
       fs1 (target ++ ".bak") = some (tc, tm) ∧
       rollbackFS fs1 res target = some (tc, tm) ∧
       rollbackFS fs1 res (target ++ ".bak") = none)) :=
  ⟨⟨by decide, by decide, by decide, by decide, by decide, rfl, rfl, by decide, rfl,
    by decide, rfl, rfl⟩,
   C2_restart_failure_rollback depsC2 planW stW false 50 aresW iresW ("exec failed")
     (by decide) (by decide) (by decide) (by decide) (by decide) rfl rfl (by decide)
     rfl (by decide) rfl rfl⟩

/-- Claim C3 (evaluation at the failing input): when the restarter returns
the dedicated deferred-restart error `ErrRestartDeferred` after a successful
apply and install, `applyPlan` does not treat it as success — it performs
the rollback, reverts the applied version to the previous one and emits a
"failed" report with `stage == "restart"`, because no caller ever tests for
`ErrRestartDeferred`. -/
theorem C3_deferred_restart_not_treated_as_success :
    (applyPlan depsC3 planW stW false 50).outcome
        = MgrOutcome.failedRestart errRestartDeferred ∧
    MgrAction.rollbackCall iresW ∈ (applyPlan depsC3 planW stW false 50).trace ∧
    (applyPlan depsC3 planW stW false 50).state.applied.version = "1.0.0" ∧
    (applyPlan depsC3 planW stW false 50).state.applied.lastError = errRestartDeferred ∧
    MgrAction.reportEmit (mkReport planW ("agt_123") ("1.0.0") ("failed")
        errRestartDeferred [("stage", "restart")])
      ∈ (applyPlan depsC3 planW stW false 50).trace := by
  decide

/-- Witness for C5: three live items in a capacity-4 queue, a failing sink,
a fresh spill store, batch size 2. -/
theorem C5_transmitter_priority_and_retry_witness :
    (queueC5.items.length ≤ queueC5.capacity) ∧ (1 ≤ queueC5.capacity) ∧
    (((queueC5.drain txC5.batchSize).2 ≠ [] →
      TxAction.backfillNext ∉ (runIter (fun n => [n]) (failSpill Nat) txC5 queueC5
        (openEmptySpill Nat 1000 100) false).2.2 ∧
      (runIter (fun n => [n]) (failSpill Nat) txC5 queueC5
        (openEmptySpill Nat 1000 100) false).2.1 = openEmptySpill Nat 1000 100) ∧
    ((queueC5.drain txC5.batchSize).2 ≠ [] → false = false →
      (runIter (fun n => [n]) (failSpill Nat) txC5 queueC5
        (openEmptySpill Nat 1000 100) false).1
        = (queueC5.drain txC5.batchSize).2.foldl
            (fun acc r => (ResultQueue.enqueue (failSpill Nat) acc r).1)
            (queueC5.drain txC5.batchSize).1 ∧
      TxAction.sleptRetry ∈ (runIter (fun n => [n]) (failSpill Nat) txC5 queueC5
        (openEmptySpill Nat 1000 100) false).2.2 ∧
      (queueC5.spill = none →
        (runIter (fun n => [n]) (failSpill Nat) txC5 queueC5
          (openEmptySpill Nat 1000 100) false).1.items
          = (queueC5.drain txC5.batchSize).1.items ++ (queueC5.drain txC5.batchSize).2)) ∧
    ((queueC5.drain txC5.batchSize).2 = [] → txC5.hasBackfill = true →
      (txC5.ctrl.next (fun n => [n]) (openEmptySpill Nat 1000 100)
        txC5.batchSize).2.results ≠ [] → false = false →
      TxAction.ackCall ∉ (runIter (fun n => [n]) (failSpill Nat) txC5 queueC5
        (openEmptySpill Nat 1000 100) false).2.2 ∧
      (runIter (fun n => [n]) (failSpill Nat) txC5 queueC5
        (openEmptySpill Nat 1000 100) false).2.1
        = (txC5.ctrl.next (fun n => [n]) (openEmptySpill Nat 1000 100) txC5.batchSize).1 ∧
      txC5.ctrl.next (fun n => [n])
        (txC5.ctrl.next (fun n => [n]) (openEmptySpill Nat 1000 100) txC5.batchSize).1
        txC5.batchSize
        = txC5.ctrl.next (fun n => [n]) (openEmptySpill Nat 1000 100) txC5.batchSize) ∧
    (TxAction.ackCall ∈ (runIter (fun n => [n]) (failSpill Nat) txC5 queueC5
        (openEmptySpill Nat 1000 100) false).2.2 → false = true)) :=
  ⟨by decide, by decide,
   C5_transmitter_priority_and_retry Nat Unit (fun n => [n]) (failSpill Nat) txC5 queueC5
     (openEmptySpill Nat 1000 100) false (by decide) (by decide)⟩

/-- Claim C8: appending one record `r` to the spill log, reading it back with
`ReadBatch`, then acknowledging the batch with `Ack` decreases the
pending-byte count (`PendingBytes` / `SizeBytes`) by exactly the encoded size
of `r`: 4 bytes of length prefix plus the length of `r`'s JSON encoding.
Stated from a freshly opened (empty) store whose segment size admits the
record. -/
theorem C8_spill_pending_bytes_round_trip (α : Type) (enc : α → List Nat) (r : α)
    (maxBytes segmentSize m : Int) (c : BackfillCtrl)
    (hfit : recSize enc r ≤ (openEmptySpill α maxBytes segmentSize).segmentSize) :
    ((openEmptySpill α maxBytes segmentSize).append enc r).sizeBytes
        = (openEmptySpill α maxBytes segmentSize).sizeBytes + (4 + (enc r).length) ∧
    ((((openEmptySpill α maxBytes segmentSize).append enc r).readBatch enc m).2).results
        = [r] ∧
    ((((openEmptySpill α maxBytes segmentSize).append enc r).readBatch enc m).1.ack enc
        ((((openEmptySpill α maxBytes segmentSize).append enc r).readBatch enc m).2)).sizeBytes
        = 0 ∧
    c.pendingBytes (((openEmptySpill α maxBytes segmentSize).append enc r).readBatch enc m).1
      - c.pendingBytes
          ((((openEmptySpill α maxBytes segmentSize).append enc r).readBatch enc m).1.ack enc
            ((((openEmptySpill α maxBytes segmentSize).append enc r).readBatch enc m).2))
        = 4 + (enc r).length := by
  have hsmb := openEmptySpill_ss_le_mb α maxBytes segmentSize
  set mb := (openEmptySpill α maxBytes segmentSize).maxBytes with hmbdef
  set ss := (openEmptySpill α maxBytes segmentSize).segmentSize with hssdef
  have hs0 : openEmptySpill α maxBytes segmentSize = ⟨mb, ss, [⟨1, []⟩], some 1, 0, 0, 0⟩ :=
    openEmptySpill_eq α maxBytes segmentSize
  have hfit' : 4 + (enc r).length ≤ ss := by simpa [recSize] using hfit
  have hmax' : ¬ (4 + (enc r).length > mb) := by omega
  have h1 : (openEmptySpill α maxBytes segmentSize).append enc r
      = ⟨mb, ss, [⟨1, [r]⟩], some 1, 0, 0, recSize enc r⟩ := by
    rw [hs0]
    simp [SpillStore.append, SpillStore.rotateIfNeeded, segSize,
      SpillStore.writeRecord, enforceMaxBytes, recSize, hfit', hmax']
  have hm1 : 1 ≤ (if m ≤ 0 then 1024 else m.toNat) := by split_ifs <;> omega
  have h2 : ((openEmptySpill α maxBytes segmentSize).append enc r).readBatch enc m
      = (⟨mb, ss, [⟨1, [r]⟩], some 1, 0, 0, recSize enc r⟩,
         ⟨[r], [(1, recSize enc r)]⟩) := by
    rw [h1]
    simp only [SpillStore.readBatch, segsFrom, if_pos rfl]
    have htake : List.take (if m ≤ 0 then 1024 else m.toNat) [r] = [r] :=
      List.take_of_length_le (by simpa using hm1)
    simp [collectSegs, dropBytes, htake]
  have h3 : (SpillStore.ack enc (⟨mb, ss, [⟨1, [r]⟩], some 1, 0, 0, recSize enc r⟩ :
      SpillStore α) ⟨[r], [(1, recSize enc r)]⟩)
      = ⟨mb, ss, [], none, 0, 0, 0⟩ := by
    simp [SpillStore.ack, ackEntries, SpillStore.dropHead, segSize, recSize]
  rw [h2]
  dsimp only
  rw [h3, h1, hs0]
  refine ⟨?_, rfl, rfl, ?_⟩
  · simp [SpillStore.sizeBytes, recSize]
  · simp [BackfillCtrl.pendingBytes, SpillStore.sizeBytes, recSize]

/-- Witness for C8: a two-byte encoder on `Nat`, record 7, limits (1000,100),
ReadBatch max 10. -/
theorem C8_spill_pending_bytes_round_trip_witness :
    (recSize (fun _ => [0, 0]) 7
        ≤ (openEmptySpill Nat 1000 100).segmentSize) ∧
    (((openEmptySpill Nat 1000 100).append (fun _ => [0, 0]) 7).sizeBytes
        = (openEmptySpill Nat 1000 100).sizeBytes + (4 + ([0, 0] : List Nat).length) ∧
     ((((openEmptySpill Nat 1000 100).append (fun _ => [0, 0]) 7).readBatch
          (fun _ => [0, 0]) 10).2).results = [7] ∧
     ((((openEmptySpill Nat 1000 100).append (fun _ => [0, 0]) 7).readBatch
          (fun _ => [0, 0]) 10).1.ack (fun _ => [0, 0])
        ((((openEmptySpill Nat 1000 100).append (fun _ => [0, 0]) 7).readBatch
          (fun _ => [0, 0]) 10).2)).sizeBytes = 0 ∧
     (BackfillCtrl.mk 256).pendingBytes
        (((openEmptySpill Nat 1000 100).append (fun _ => [0, 0]) 7).readBatch
          (fun _ => [0, 0]) 10).1
      - (BackfillCtrl.mk 256).pendingBytes
          ((((openEmptySpill Nat 1000 100).append (fun _ => [0, 0]) 7).readBatch
            (fun _ => [0, 0]) 10).1.ack (fun _ => [0, 0])
            ((((openEmptySpill Nat 1000 100).append (fun _ => [0, 0]) 7).readBatch
              (fun _ => [0, 0]) 10).2))
        = 4 + ([0, 0] : List Nat).length) :=
  ⟨by decide,
   C8_spill_pending_bytes_round_trip Nat (fun _ => [0, 0]) 7 1000 100 10
     (BackfillCtrl.mk 256) (by decide)⟩

/-- Witness for C10: capacity-2 queue holding `[1, 2]`, threshold 1, failing
spill store. -/
theorem C10_spill_failure_enqueue_returns_false_witness :
    ((queueC10.enqueue (failSpill Nat) 9).2 = false ∧
     (queueC10.enqueue (failSpill Nat) 9).1.items = [2, 9] ∧
     (queueC10.enqueue (failSpill Nat) 9).1.dropped = queueC10.dropped + 1 ∧
     (queueC10.enqueue (failSpill Nat) 9).1.events
        = queueC10.events ++ [QueueEvent.queueDrop]) :=
  C10_spill_failure_enqueue_returns_false Nat Unit (failSpill Nat) queueC10 () 1 [2] 9
    (by rfl) (by rfl) (by rfl) (by decide) (by decide) (by decide)

/-! ## Plan-store lookup lemmas and C4 -/

lemma channelPlanKey_ne_empty (c : String) : channelPlanKey c ≠ "" := by
  intro h
  have hlen := congrArg String.length h
  simp only [channelPlanKey] at hlen
  rw [String.length_append] at hlen
  have h8 : ("channel:" : String).length = 8 := rfl
  have h0 : ("" : String).length = 0 := rfl
  rw [h8, h0] at hlen
  omega

lemma fetchLookupSpec_eq {β : Type} (lookup : String → Option β) (agentID channel : String) :
    fetchLookupSpec lookup agentID channel =
      (match lookup agentID with
       | some p => some p
       | none => lookup (channelPlanKey channel)) := rfl

/-- **C4**: both `FetchUpgradePlan` implementations follow the specified
lookup order — the exact `agent_id` key first, then the synthetic
`"channel:<normalized>"` key (normalization lowercases and trims, an
empty channel defaulting to `"stable"`); on a double miss the Postgres
store returns `ErrPlanNotFound` while the in-memory store synthesizes a
default stable plan (version 1.0.0, channel defaulted to `"stable"` when
empty) and returns it with an ETag. -/
theorem C4_fetch_plan_lookup_order
    (db : String → Option (UpgradePlanResponseM × String))
    (etagOf : UpgradePlanResponseM → String)
    (plans : String → Option UpgradePlanResponseM)
    (agentID channel : String) (now : Int) :
    postgresFetchUpgradePlan db agentID channel =
      (match fetchLookupSpec db agentID channel with
       | some r => Except.ok r
       | none => Except.error FetchErr.planNotFound) ∧
    memoryFetchUpgradePlan etagOf plans agentID channel now =
      (match fetchLookupSpec plans agentID channel with
       | some p => (p, etagOf p)
       | none => (defaultPlan agentID channel now,
                  etagOf (defaultPlan agentID channel now))) ∧
    (defaultPlan agentID channel now).artifact.version = "1.0.0" ∧
    (defaultPlan agentID ("") now).channel = "stable" := by
  refine ⟨?_, ?_, rfl, rfl⟩
  · simp only [postgresFetchUpgradePlan]
    rw [fetchLookupSpec_eq]
    cases db agentID with
    | some r => rfl
    | none =>
      dsimp only
      rw [if_neg (channelPlanKey_ne_empty channel)]
  · simp only [memoryFetchUpgradePlan]
    rw [fetchLookupSpec_eq]
    cases plans agentID with
    | some p => rfl
    | none =>
      dsimp only
      rw [if_neg (channelPlanKey_ne_empty channel)]

/-! ## Decimal rendering lemmas -/

lemma char_digit_roundtrip : ∀ d, d < 10 → (Char.ofNat (48 + d)).toNat = 48 + d := by
  decide

lemma decDigitsAux_eq (fuel n : Nat) (h : n ≤ fuel) :
    decDigitsAux fuel n = Nat.digits 10 n := by
  induction fuel generalizing n with
  | zero =>
    interval_cases n
    simp [decDigitsAux]
  | succ fuel ih =>
    cases n with
    | zero => simp [decDigitsAux]
    | succ m =>
      rw [decDigitsAux, Nat.digits_def' (by norm_num) (Nat.succ_pos m)]
      rw [ih ((m + 1) / 10) (by omega)]

lemma decDigits_eq (n : Nat) : decDigits n = Nat.digits 10 n :=
  decDigitsAux_eq n n le_rfl

lemma decDigitsRev_map_back (n : Nat) :
    (decDigitsRev n).map (fun c => c.toNat - 48) = decDigits n := by
  rw [decDigitsRev, List.map_map]
  have h : ∀ d ∈ decDigits n,
      ((fun c => c.toNat - 48) ∘ fun d => Char.ofNat (48 + d)) d = id d := by
    intro d hd
    have hlt : d < 10 := by
      rw [decDigits_eq] at hd
      exact Nat.digits_lt_base (by norm_num) hd
    have hr := char_digit_roundtrip d hlt
    simp only [Function.comp_apply, id_eq]
    rw [hr]
    omega
  rw [List.map_congr_left h, List.map_id]

lemma decDigitsRev_inj {m n : Nat} (h : decDigitsRev m = decDigitsRev n) : m = n := by
  have h2 := congrArg (List.map (fun c => c.toNat - 48)) h
  rw [decDigitsRev_map_back, decDigitsRev_map_back, decDigits_eq, decDigits_eq] at h2
  exact Nat.digits_inj_iff.mp h2

lemma mem_decDigitsRev_ge {n : Nat} {c : Char} (hc : c ∈ decDigitsRev n) :
    48 ≤ c.toNat := by
  rw [decDigitsRev] at hc
  obtain ⟨d, hd, rfl⟩ := List.mem_map.mp hc
  have hlt : d < 10 := by
    rw [decDigits_eq] at hd
    exact Nat.digits_lt_base (by norm_num) hd
  rw [char_digit_roundtrip d hlt]
  omega

lemma decRepr_neg_data {a : Int} (ha : a < 0) :
    (decRepr a).data = '-' :: (decDigitsRev a.natAbs).reverse := by
  rw [decRepr, if_pos ha, String.data_append]
  rfl

lemma decRepr_pos_data {a : Int} (ha : 0 < a) :
    (decRepr a).data = (decDigitsRev a.toNat).reverse := by
  have h1 : ¬ a < 0 := by omega
  have h2 : ¬ a = 0 := by omega
  rw [decRepr, if_neg h1, if_neg h2]

lemma decRepr_zero : decRepr 0 = "0" := by decide

lemma decRepr_inj {a b : Int} (h : decRepr a = decRepr b) : a = b := by
  rcases lt_trichotomy a 0 with ha | ha | ha <;> rcases lt_trichotomy b 0 with hb | hb | hb
  · have hd := congrArg String.data h
    rw [decRepr_neg_data ha, decRepr_neg_data hb] at hd
    injection hd with h1 h2
    have h3 := List.reverse_injective h2
    have h4 := decDigitsRev_inj h3
    omega
  · subst hb
    rw [decRepr_zero] at h
    have hd := congrArg String.data h
    rw [decRepr_neg_data ha] at hd
    have h0 : ("0" : String).data = ['0'] := rfl
    rw [h0] at hd
    injection hd with h1 h2
    exact absurd h1 (by decide)
  · have hd := congrArg String.data h
    rw [decRepr_neg_data ha, decRepr_pos_data hb] at hd
    have hm : '-' ∈ (decDigitsRev b.toNat).reverse := by
      rw [← hd]
      exact List.mem_cons_self _ _
    have hm2 := mem_decDigitsRev_ge (List.mem_reverse.mp hm)
    have h45 : ('-' : Char).toNat = 45 := by decide
    omega
  · subst ha
    rw [decRepr_zero] at h
    have hd := congrArg String.data h.symm
    rw [decRepr_neg_data hb] at hd
    have h0 : ("0" : String).data = ['0'] := rfl
    rw [h0] at hd
    injection hd with h1 h2
    exact absurd h1 (by decide)
  · omega
  · subst ha
    rw [decRepr_zero] at h
    have hd := congrArg String.data h.symm
    rw [decRepr_pos_data hb] at hd
    have h0 : ("0" : String).data = ['0'] := rfl
    rw [h0] at hd
    have hB : decDigitsRev b.toNat = ['0'] := by
      have h2 := congrArg List.reverse hd
      rw [List.reverse_reverse] at h2
      simpa using h2
    have h2 := congrArg (List.map (fun c => c.toNat - 48)) hB
    rw [decDigitsRev_map_back, decDigits_eq] at h2
    have h3 : (['0'] : List Char).map (fun c => c.toNat - 48) = [0] := by decide
    rw [h3] at h2
    have h4 := Nat.ofDigits_digits 10 b.toNat
    rw [h2] at h4
    have h5 : Nat.ofDigits 10 ([0] : List Nat) = 0 := by decide
    rw [h5] at h4
    omega
  · have hd := congrArg String.data h.symm
    rw [decRepr_neg_data hb, decRepr_pos_data ha] at hd
    have hm : '-' ∈ (decDigitsRev a.toNat).reverse := by
      rw [← hd]
      exact List.mem_cons_self _ _
    have hm2 := mem_decDigitsRev_ge (List.mem_reverse.mp hm)
    have h45 : ('-' : Char).toNat = 45 := by decide
    omega
  · subst hb
    rw [decRepr_zero] at h
    have hd := congrArg String.data h
    rw [decRepr_pos_data ha] at hd
    have h0 : ("0" : String).data = ['0'] := rfl
    rw [h0] at hd
    have hA : decDigitsRev a.toNat = ['0'] := by
      have h2 := congrArg List.reverse hd
      rw [List.reverse_reverse] at h2
      simpa using h2
    have h2 := congrArg (List.map (fun c => c.toNat - 48)) hA
    rw [decDigitsRev_map_back, decDigits_eq] at h2
    have h3 : (['0'] : List Char).map (fun c => c.toNat - 48) = [0] := by decide
    rw [h3] at h2
    have h4 := Nat.ofDigits_digits 10 a.toNat
    rw [h2] at h4
    have h5 : Nat.ofDigits 10 ([0] : List Nat) = 0 := by decide
    rw [h5] at h4
    omega
  · have hd := congrArg String.data h
    rw [decRepr_pos_data ha, decRepr_pos_data hb] at hd
    have h2 := List.reverse_injective hd
    have h3 := decDigitsRev_inj h2
    omega

/-! ## Artifact-name lemmas and C9 -/

lemma affix_cancel {b e x y : String} (h : b ++ x ++ e = b ++ y ++ e) : x = y := by
  have hd := congrArg String.data h
  simp only [String.data_append] at hd
  have h1 := List.append_cancel_right hd
  have h2 := List.append_cancel_left h1
  obtain ⟨xd⟩ := x
  obtain ⟨yd⟩ := y
  dsimp only at h2
  exact congrArg String.mk h2

lemma name_with_dash_ne_empty (b x e : String) : b ++ "-" ++ x ++ e ≠ "" := by
  intro h
  have hlen := congrArg String.length h
  rw [String.length_append, String.length_append, String.length_append] at hlen
  have hdash : ("-" : String).length = 1 := rfl
  have h0 : ("" : String).length = 0 := rfl
  rw [hdash, h0] at hlen
  omega

/-- **C9 (counterexample)**: two `FileStore.Save` calls with the same
version and payload at distinct times (same unix second, different
nanoseconds) return the SAME artifact name — `%s-%d%s` uses second
resolution — so the second save overwrites the first; the claim that the
names always differ for distinct times fails. -/
theorem C9_same_second_name_collision :
    (⟨100, 0⟩ : GoTime) ≠ ⟨100, 5⟩ ∧
    GoTime.unixNano ⟨100, 0⟩ ≠ GoTime.unixNano ⟨100, 5⟩ ∧
    (fileStoreSave (fun _ => none) ("1.0.0") ("agent.tar.gz") [1] none ("")
        ⟨100, 0⟩).2.1 =
      (fileStoreSave (fun _ => none) ("1.0.0") ("agent.tar.gz") [1] none ("")
        ⟨100, 5⟩).2.1 ∧
    (fileStoreSave (fun _ => none) ("1.0.0") ("agent.tar.gz") [1] none ("")
        ⟨100, 0⟩).2.1 = "1.0-100.tar.gz" := by
  refine ⟨by decide, by decide, by decide, by decide⟩

/-- **C9 (amended)**: for two `FileStore.Save` calls with the same version,
artifact name and payload whose times fall in distinct unix SECONDS the
returned artifact names differ and both files remain retrievable via
`Open`; the in-memory store's names differ whenever the times differ at
nanosecond resolution. -/
theorem C9_distinct_seconds_names_differ
    (fs files : ArtFS) (version artifactName : String) (payload : List Nat)
    (t1 t2 : GoTime) (hsec : t1.unix ≠ t2.unix)
    (hnano : t1.unixNano ≠ t2.unixNano) :
    (fileStoreSave fs version artifactName payload none ("") t1).2.1 ≠
      (fileStoreSave (fileStoreSave fs version artifactName payload none ("") t1).1
        version artifactName payload none ("") t2).2.1 ∧
    fileStoreOpen
      (fileStoreSave (fileStoreSave fs version artifactName payload none ("") t1).1
        version artifactName payload none ("") t2).1
      (fileStoreSave fs version artifactName payload none ("") t1).2.1
      = some payload ∧
    fileStoreOpen
      (fileStoreSave (fileStoreSave fs version artifactName payload none ("") t1).1
        version artifactName payload none ("") t2).1
      (fileStoreSave (fileStoreSave fs version artifactName payload none ("") t1).1
        version artifactName payload none ("") t2).2.1
      = some payload ∧
    (memoryStoreSave files version artifactName payload t1).2 ≠
      (memoryStoreSave files version artifactName payload t2).2 := by
  have e1 : fileStoreSave fs version artifactName payload none ("") t1 =
      (artWrite fs
        ((if sanitizedBase [version, artifactName] = "" then "artifact"
          else sanitizedBase [version, artifactName]) ++ "-" ++
          decRepr t1.unix ++ normalizedExt artifactName) payload,
       (if sanitizedBase [version, artifactName] = "" then "artifact"
        else sanitizedBase [version, artifactName]) ++ "-" ++
         decRepr t1.unix ++ normalizedExt artifactName, "") := rfl
  rw [e1]
  dsimp only
  have e2 : fileStoreSave
      (artWrite fs
        ((if sanitizedBase [version, artifactName] = "" then "artifact"
          else sanitizedBase [version, artifactName]) ++ "-" ++
          decRepr t1.unix ++ normalizedExt artifactName) payload)
      version artifactName payload none ("") t2 =
      (artWrite
        (artWrite fs
          ((if sanitizedBase [version, artifactName] = "" then "artifact"
            else sanitizedBase [version, artifactName]) ++ "-" ++
            decRepr t1.unix ++ normalizedExt artifactName) payload)
        ((if sanitizedBase [version, artifactName] = "" then "artifact"
          else sanitizedBase [version, artifactName]) ++ "-" ++
          decRepr t2.unix ++ normalizedExt artifactName) payload,
       (if sanitizedBase [version, artifactName] = "" then "artifact"
        else sanitizedBase [version, artifactName]) ++ "-" ++
         decRepr t2.unix ++ normalizedExt artifactName, "") := rfl
  rw [e2]
  dsimp only
  have hne : ((if sanitizedBase [version, artifactName] = "" then "artifact"
      else sanitizedBase [version, artifactName]) ++ "-" ++
      decRepr t1.unix ++ normalizedExt artifactName) ≠
      ((if sanitizedBase [version, artifactName] = "" then "artifact"
        else sanitizedBase [version, artifactName]) ++ "-" ++
        decRepr t2.unix ++ normalizedExt artifactName) := by
    intro hcontra
    exact hsec (decRepr_inj (affix_cancel hcontra))
  have hn1 := name_with_dash_ne_empty
    (if sanitizedBase [version, artifactName] = "" then "artifact"
     else sanitizedBase [version, artifactName])
    (decRepr t1.unix) (normalizedExt artifactName)
  have hn2 := name_with_dash_ne_empty
    (if sanitizedBase [version, artifactName] = "" then "artifact"
     else sanitizedBase [version, artifactName])
    (decRepr t2.unix) (normalizedExt artifactName)
  refine ⟨hne, ?_, ?_, ?_⟩
  · simp only [fileStoreOpen]
    rw [if_neg hn1]
    simp only [artWrite]
    rw [if_neg hne]
    simp
  · simp only [fileStoreOpen]
    rw [if_neg hn2]
    simp only [artWrite]
    simp
  · have m1 : memoryStoreSave files version artifactName payload t1 =
        (artWrite files
          ((if sanitizedBase [version, artifactName] = "" then "artifact"
            else sanitizedBase [version, artifactName]) ++ "-" ++
            decRepr t1.unixNano ++ normalizedExt artifactName) payload,
         (if sanitizedBase [version, artifactName] = "" then "artifact"
          else sanitizedBase [version, artifactName]) ++ "-" ++
           decRepr t1.unixNano ++ normalizedExt artifactName) := rfl
    have m2 : memoryStoreSave files version artifactName payload t2 =
        (artWrite files
          ((if sanitizedBase [version, artifactName] = "" then "artifact"
            else sanitizedBase [version, artifactName]) ++ "-" ++
            decRepr t2.unixNano ++ normalizedExt artifactName) payload,
         (if sanitizedBase [version, artifactName] = "" then "artifact"
          else sanitizedBase [version, artifactName]) ++ "-" ++
           decRepr t2.unixNano ++ normalizedExt artifactName) := rfl
    rw [m1, m2]
    dsimp only
    intro hcontra
    exact hnano (decRepr_inj (affix_cancel hcontra))

/-- Witness for C9 (amended): saves at seconds 100 and 101. -/
theorem C9_distinct_seconds_names_differ_witness :
    GoTime.unix ⟨100, 0⟩ ≠ GoTime.unix ⟨101, 0⟩ ∧
    GoTime.unixNano ⟨100, 0⟩ ≠ GoTime.unixNano ⟨101, 0⟩ ∧
    ((fileStoreSave (fun _ => none) ("1.2.3") ("agent.bin") [7] none ("")
        ⟨100, 0⟩).2.1 ≠
      (fileStoreSave
        (fileStoreSave (fun _ => none) ("1.2.3") ("agent.bin") [7] none ("")
          ⟨100, 0⟩).1
        ("1.2.3") ("agent.bin") [7] none ("") ⟨101, 0⟩).2.1 ∧
    fileStoreOpen
      (fileStoreSave
        (fileStoreSave (fun _ => none) ("1.2.3") ("agent.bin") [7] none ("")
          ⟨100, 0⟩).1
        ("1.2.3") ("agent.bin") [7] none ("") ⟨101, 0⟩).1
      (fileStoreSave (fun _ => none) ("1.2.3") ("agent.bin") [7] none ("")
        ⟨100, 0⟩).2.1
      = some [7] ∧
    fileStoreOpen
      (fileStoreSave
        (fileStoreSave (fun _ => none) ("1.2.3") ("agent.bin") [7] none ("")
          ⟨100, 0⟩).1
        ("1.2.3") ("agent.bin") [7] none ("") ⟨101, 0⟩).1
      (fileStoreSave
        (fileStoreSave (fun _ => none) ("1.2.3") ("agent.bin") [7] none ("")
          ⟨100, 0⟩).1
        ("1.2.3") ("agent.bin") [7] none ("") ⟨101, 0⟩).2.1
      = some [7] ∧
    (memoryStoreSave (fun _ => none) ("1.2.3") ("agent.bin") [7] ⟨100, 0⟩).2 ≠
      (memoryStoreSave (fun _ => none) ("1.2.3") ("agent.bin") [7] ⟨101, 0⟩).2) :=
  ⟨by decide, by decide,
   C9_distinct_seconds_names_differ (fun _ => none) (fun _ => none)
     ("1.2.3") ("agent.bin") [7] ⟨100, 0⟩ ⟨101, 0⟩ (by decide) (by decide)⟩

end PingSanto
